import Mathlib

/-!
Verification development for the core of the slia scripting language
(an Arabic-keyword dynamically-typed language): a Pratt/precedence-climbing
parser producing an AST, and a stack-based bytecode virtual machine with
closures, upvalues and structured exception handling.

The definitions below are a shallow embedding of the repository's source:

* `src/قتام/src/parser.rs` (the full parser: `Parser::expr`, the statement
  parsers, `Parser::parse`) and `src/قتام/src/ast.rs` (the `Expr`/`Stml`
  sum types);
* `src/src/operators.rs` (the operator table `OPERATORS`);
* `src/src/vm.rs` (the authoritative virtual machine: `Vm`, `Frame::run`,
  `get_absolute_idx`, handlers, backtraces, upvalues).

Parts of the repository that those files depend on but whose sources are not
available (the lexer and `token.rs`, `value.rs`, `chunk.rs`, `natives.rs`)
are modelled from the specification; each such definition carries a doc
comment starting with `Modelled from the spec:`.
-/

set_option maxRecDepth 100000

namespace Slia

/-! ## Tokens and the operator table -/

/-- Modelled from the spec: `token.rs` is absent from the sources.  The kinds
of tokens the parser dispatches on: literals, punctuation, operators, the
newline/comment/EOF markers and the Arabic statement keywords.  Positions and
lexeme slices carry no parsing-relevant information beyond the lexeme text,
so a token is its kind plus its lexeme. -/
inductive TokenType where
  | identifier | number | string | true_ | false_ | nil
  | oParen | cParen | oBrace | cBrace | oBracket | cBracket
  | comma | colon | period
  | plus | minus | star | slash | percent
  | equal | eqEq | bangEq | bang
  | greater | greaterEq | less | lessEq
  | andAnd | orOr | pipe
  | newline | comment | eof
  | kFunction | kVar | kIf | kElseIf | kElse | kWhile | kLoop | kBreak
  | kContinue | kReturn | kThrow | kTry | kCatch | kFor | kIn
  | kImport | kExport | kFrom
deriving DecidableEq

/-- Modelled from the spec: a token is an enumerated kind plus its lexeme
(the `(line, column)` position only feeds diagnostics and is omitted). -/
structure Token where
  typ : TokenType
  lex : String
deriving DecidableEq

/-- Infix associativity, from `src/src/operators.rs` (`Associativity`). -/
inductive Associativity where
  | left | right
deriving DecidableEq

/-- One row of the operator table: the three optional precedences
(prefix, infix, postfix position) and the infix associativity,
from `src/src/operators.rs` (`OPERATORS` row shape). -/
structure OpRow where
  pre : Option Nat
  bin : Option Nat
  post : Option Nat
  assoc : Option Associativity
deriving DecidableEq

/-- The dense operator table of `src/src/operators.rs`, indexed by token
kind.  The numeric row values are copied from the source; the assignment of
token kinds to row numbers is reconstructed (the `TokenType → usize`
conversion lives in the absent `token.rs`) from the row comments, the
spec's precedence section and the repository's own parser tests:
`(`/`.`/`[` rows 0/4/6 (postfix 1), `+` row 7 (infix 4 left), `-` row 8
(prefix 2, infix 4 left), `*`/`/`/`%` rows 9–11 (infix 3 left), `=` row 15
(infix 9 right), `==` row 16 and `!=` row 18 (infix 6 left), `!` row 17
(prefix 2), comparisons rows 19–22 (infix 5 left), `&&` row 23 (infix 7
left), `||` row 24 (infix 8 left); every other row is empty. -/
def OPERATORS : TokenType → OpRow
  | .oParen => ⟨none, none, some 1, none⟩
  | .period => ⟨none, none, some 1, none⟩
  | .oBracket => ⟨none, none, some 1, none⟩
  | .plus => ⟨none, some 4, none, some .left⟩
  | .minus => ⟨some 2, some 4, none, some .left⟩
  | .star => ⟨none, some 3, none, some .left⟩
  | .slash => ⟨none, some 3, none, some .left⟩
  | .percent => ⟨none, some 3, none, some .left⟩
  | .equal => ⟨none, some 9, none, some .right⟩
  | .eqEq => ⟨none, some 6, none, some .left⟩
  | .bang => ⟨some 2, none, none, none⟩
  | .bangEq => ⟨none, some 6, none, some .left⟩
  | .greater => ⟨none, some 5, none, some .left⟩
  | .greaterEq => ⟨none, some 5, none, some .left⟩
  | .less => ⟨none, some 5, none, some .left⟩
  | .lessEq => ⟨none, some 5, none, some .left⟩
  | .andAnd => ⟨none, some 7, none, some .left⟩
  | .orOr => ⟨none, some 8, none, some .left⟩
  | _ => ⟨none, none, none, none⟩

/-- Modelled from the spec: `BINARY_SET` lives in the absent `token.rs`.
It is the set of assignment-family tokens that turn a `Get` into a `Set`
(the language's only assignment operator is `=`). -/
def BINARY_SET : List TokenType := [.equal]

/-- Modelled from the spec: `BOUNDARIES` lives in the absent `token.rs`.
The boundary set at which the parser resynchronises after an error:
statement-introducing keywords and EOF. -/
def BOUNDARIES : List TokenType :=
  [.kFunction, .kVar, .kIf, .kWhile, .kLoop, .kBreak, .kContinue,
   .kReturn, .kThrow, .kTry, .kFor, .kImport, .kExport, .eof]

/-! ## The AST (`src/قتام/src/ast.rs`) -/

mutual

/-- Embeds `Literal`, from `src/قتام/src/ast.rs`. -/
inductive Literal where
  | numberL (t : Token)
  | stringL (t : Token)
  | boolL (t : Token)
  | nilL (t : Token)
  | listL (items : List Expr)
  | objectL (props : List (Token × Option Expr))

/-- Embeds `Expr`, from `src/قتام/src/ast.rs`. -/
inductive Expr where
  | variable_ (t : Token)
  | literal (l : Literal)
  | unaryE (op : Token) (e : Expr)
  | binaryE (op : Token) (lhs rhs : Expr)
  | callE (op : Token) (callee : Expr) (args : List Expr)
  | getE (op : Token) (target key : Expr)
  | setE (op : Token) (target key value : Expr)
  | lambdaE (t : Token) (params : List Token) (body : Stml)

/-- Embeds `Stml`, from `src/قتام/src/ast.rs`. -/
inductive Stml where
  | blockS (decls : List Stml)
  | functionDecl (name : Token) (params : List Token) (body : Stml)
  | varDecl (kw name : Token) (initializer : Option Expr)
  | returnS (kw : Token) (e : Option Expr)
  | throwS (kw : Token) (e : Option Expr)
  | tryCatch (body : Stml) (binding : Token) (handler : Stml)
  | ifElse (cond : Expr) (thenB : Stml) (elifs : List (Expr × Stml))
      (elseB : Option Stml)
  | whileS (cond : Expr) (body : Stml)
  | loopS (body : Stml)
  | breakS (t : Token)
  | continueS (t : Token)
  | importS (name path : Token)
  | exportS (t : Token) (inner : Stml)
  | forIn (kw elem : Token) (iter : Expr) (body : Stml)
  | exprS (e : Expr)

end

/-- Embeds `ParseError`, from `src/قتام/src/parser.rs`. -/
inductive ParseError where
  | expectedInstead (expected : List TokenType) (got : Token)
  | expectedExpr (got : Token)
  | invalidRhs (t : Token)
deriving DecidableEq

/-! ## Parser state and primitives (`src/قتام/src/parser.rs`)

The Rust parser owns a lexer and pulls tokens on demand; the lexer is an
external collaborator, so the embedding takes the finished token stream (a
list ending in an EOF token) as input.  `Parser { current, previous,
had_err }` becomes: the remaining stream (whose head is `current`), the
`previous` token, and the list of recorded errors (`had_err` is its
non-emptiness; the Rust code prints each error as it records it). -/

structure PState where
  toks : List Token
  prev : Option Token
  errs : List ParseError

/-- The designated EOF token that terminates every stream. -/
def eofTok : Token := ⟨.eof, ""⟩

/-- Embeds `Parser::err`: record an error (`had_err = true` plus the diagnostic). -/
def perr (e : ParseError) (s : PState) : PState :=
  { s with errs := s.errs ++ [e] }

/-- Embeds `Parser::current_token` (every token of the model is lexically valid). -/
def currentToken (s : PState) : Token :=
  s.toks.headD eofTok

/-- The skipping loop of `Parser::advance`: drop leading newline/comment
tokens. -/
def skipNewlines : List Token → List Token
  | [] => []
  | t :: r =>
    if t.typ = .newline ∨ t.typ = .comment then skipNewlines r else t :: r

/-- Embeds `Parser::advance`: skip newline/comment tokens, make `previous` the
first remaining token and move past it (at EOF the stream stays put, as the
lexer keeps yielding EOF). -/
def advance (s : PState) : PState :=
  let ts := skipNewlines s.toks
  let t := ts.headD eofTok
  { s with prev := some t, toks := if t.typ = .eof then ts else ts.tail }

/-- The skipping loop of `Parser::peek`: drop comments, and newlines too
when `ignoreNewlines` is set. -/
def skipPeek (ignoreNewlines : Bool) : List Token → List Token
  | [] => []
  | t :: r =>
    if t.typ = .comment ∨ (ignoreNewlines ∧ t.typ = .newline) then
      skipPeek ignoreNewlines r
    else t :: r

/-- Embeds `Parser::peek`: the skipped tokens are consumed from the stream
(the Rust code overwrites `self.current`), so peeking returns the new
state as well. -/
def peek (ignoreNewlines : Bool) (s : PState) : Token × PState :=
  let ts := skipPeek ignoreNewlines s.toks
  (ts.headD eofTok, { s with toks := ts })

/-- Embeds `Parser::check`: newline tokens are transparent except when checking
for a newline itself. -/
def check (typ : TokenType) (s : PState) : Bool × PState :=
  let (t, s1) := peek (decide (¬ typ = .newline)) s
  (decide (t.typ = typ), s1)

/-- Embeds `Parser::check_consume`. -/
def checkConsume (typ : TokenType) (s : PState) : Bool × PState :=
  let (b, s1) := check typ s
  if b then (true, advance s1) else (false, s1)

/-- Embeds `Parser::next`: advance and return the new `previous`. -/
def nextTok (s : PState) : Token × PState :=
  let s1 := advance s
  (s1.prev.getD eofTok, s1)

/-- Embeds `Parser::clone_previous`. -/
def clonePrevious (s : PState) : Token :=
  s.prev.getD eofTok

/-- Embeds `Parser::consume`: consume the expected kind or record
`ExpectedInstead` and fail. -/
def consume (typ : TokenType) (s : PState) : Except Unit Unit × PState :=
  let (b, s1) := checkConsume typ s
  if b then (.ok (), s1)
  else (.error (), perr (.expectedInstead [typ] (currentToken s1)) s1)

/-- Embeds `Parser::at_end`. -/
def atEnd (s : PState) : Bool × PState :=
  check .eof s

/-- The result of a parsing function: `Result<T> = Result<T, ()>` plus the
threaded parser state. -/
abbrev PRes (α : Type) : Type := Except Unit α × PState

/-- Embeds `Parser::identifier`. -/
def identifierF (s : PState) : PRes Token :=
  match consume .identifier s with
  | (.ok _, s) => (.ok (clonePrevious s), s)
  | (.error e, s) => (.error e, s)

/-- Embeds `Parser::break_stml`. -/
def breakStmlF (s : PState) : PRes Stml :=
  (.ok (.breakS (clonePrevious s)), s)

/-- Embeds `Parser::continue_stml`. -/
def continueStmlF (s : PState) : PRes Stml :=
  (.ok (.continueS (clonePrevious s)), s)

/-- Embeds `Parser::imported_decl`. -/
def importedDeclF (s : PState) : PRes Stml :=
  match consume .identifier s with
  | (.error e, s) => (.error e, s)
  | (.ok _, s) =>
    let name := clonePrevious s
    match consume .kFrom s with
    | (.error e, s) => (.error e, s)
    | (.ok _, s) =>
      match consume .string s with
      | (.error e, s) => (.error e, s)
      | (.ok _, s) => (.ok (.importS name (clonePrevious s)), s)

/-!
The recursive parsing functions of `src/قتام/src/parser.rs`.  The Rust
recursion terminates because every call consumes input; the embedding makes
the same recursion structural through a fuel level: `Parsers` bundles one
function per `Parser` method (each method body is a standalone `…Body`
definition, written line for line from its Rust method and calling the
bundle of the next-lower fuel level), and `P fuel` ties the knot by
recursion on the fuel alone.  `…Loop` functions are the bodies of the
corresponding `while` loops (`exprLoop` is the infix/postfix loop of
`Parser::expr`; `exprsLoop`, `propsLoop`, `paramsLoop`, `blockLoop` and
`elifsLoop` belong to `Parser::exprs`, `Parser::props`, `Parser::params`,
`Parser::block` and `Parser::if_else_stml`).
-/

structure Parsers where
  exprs : TokenType → PState → PRes (List Expr)
  exprsLoop : TokenType → List Expr → PState → PRes (List Expr)
  list : PState → PRes Expr
  prop : PState → PRes (Token × Option Expr)
  props : PState → PRes (List (Token × Option Expr))
  propsLoop : List (Token × Option Expr) → PState →
    PRes (List (Token × Option Expr))
  object : PState → PRes Expr
  literal : PState → PRes Expr
  unary : PState → PRes Expr
  group : PState → PRes Expr
  lambda : PState → PRes Expr
  params : TokenType → PState → PRes (List Token)
  paramsLoop : TokenType → List Token → PState → PRes (List Token)
  expr : Nat → Bool → PState → PRes Expr
  exprLoop : Nat → Bool → Expr → PState → PRes Expr
  parse_expr : PState → PRes Expr
  block : PState → PRes Stml
  blockLoop : List Stml → PState → PRes (List Stml)
  return_stml : PState → PRes Stml
  throw_stml : PState → PRes Stml
  function_decl : PState → PRes Stml
  expr_stml : PState → PRes Stml
  while_stml : PState → PRes Stml
  loop_stml : PState → PRes Stml
  try_catch : PState → PRes Stml
  if_else_stml : PState → PRes Stml
  elifsLoop : List (Expr × Stml) → PState → PRes (List (Expr × Stml))
  var_decl : PState → PRes Stml
  for_in : PState → PRes Stml
  stml : PState → PRes Stml
  exported_decl : PState → PRes Stml
  decl : PState → PRes Stml

/-- Embeds `Parser::exprs`: a comma-separated, trailing-comma-tolerant expression
list terminated by `closing`. -/
def exprsBody (p : Parsers) (closing : TokenType) (s : PState) :
    PRes (List Expr) :=
  let (b, s) := checkConsume closing s
  if b then (.ok [], s)
  else
    match p.parse_expr s with
    | (.error e, s) => (.error e, s)
    | (.ok first, s) => p.exprsLoop closing [first] s

/-- The `while check_consume(Comma)` loop of `Parser::exprs`. -/
def exprsLoopBody (p : Parsers) (closing : TokenType) (items : List Expr)
    (s : PState) : PRes (List Expr) :=
  let (b, s) := checkConsume .comma s
  if b then
    let (b2, s) := checkConsume closing s
    if b2 then (.ok items, s)
    else
      match p.parse_expr s with
      | (.error e, s) => (.error e, s)
      | (.ok e, s) => p.exprsLoop closing (items ++ [e]) s
  else
    match consume closing s with
    | (.error e, s) => (.error e, s)
    | (.ok _, s) => (.ok items, s)

/-- Embeds `Parser::list`. -/
def listBody (p : Parsers) (s : PState) : PRes Expr :=
  match p.exprs .cBracket s with
  | (.error e, s) => (.error e, s)
  | (.ok items, s) => (.ok (.literal (.listL items)), s)

/-- Embeds `Parser::prop`: a property name with an optional `:`-initialised
value. -/
def propBody (p : Parsers) (s : PState) : PRes (Token × Option Expr) :=
  match consume .identifier s with
  | (.error e, s) => (.error e, s)
  | (.ok _, s) =>
    let key := clonePrevious s
    let (b, s) := checkConsume .colon s
    if b then
      match p.parse_expr s with
      | (.error e, s) => (.error e, s)
      | (.ok v, s) => (.ok (key, some v), s)
    else (.ok (key, none), s)

/-- Embeds `Parser::props`. -/
def propsBody (p : Parsers) (s : PState) : PRes (List (Token × Option Expr)) :=
  let (b, s) := checkConsume .cBrace s
  if b then (.ok [], s)
  else
    match p.prop s with
    | (.error e, s) => (.error e, s)
    | (.ok first, s) => p.propsLoop [first] s

/-- The `while check_consume(Comma)` loop of `Parser::props`. -/
def propsLoopBody (p : Parsers) (items : List (Token × Option Expr))
    (s : PState) : PRes (List (Token × Option Expr)) :=
  let (b, s) := checkConsume .comma s
  if b then
    let (b2, s) := checkConsume .cBrace s
    if b2 then (.ok items, s)
    else
      match p.prop s with
      | (.error e, s) => (.error e, s)
      | (.ok pr, s) => p.propsLoop (items ++ [pr]) s
  else
    match consume .cBrace s with
    | (.error e, s) => (.error e, s)
    | (.ok _, s) => (.ok items, s)

/-- Embeds `Parser::object`. -/
def objectBody (p : Parsers) (s : PState) : PRes Expr :=
  match p.props s with
  | (.error e, s) => (.error e, s)
  | (.ok props, s) => (.ok (.literal (.objectL props)), s)

/-- Embeds `Parser::literal`: dispatch on the just-consumed token. -/
def literalBody (p : Parsers) (s : PState) : PRes Expr :=
  let token := clonePrevious s
  match token.typ with
  | .identifier => (.ok (.variable_ token), s)
  | .number => (.ok (.literal (.numberL token)), s)
  | .string => (.ok (.literal (.stringL token)), s)
  | .true_ => (.ok (.literal (.boolL token)), s)
  | .false_ => (.ok (.literal (.boolL token)), s)
  | .nil => (.ok (.literal (.nilL token)), s)
  | .oBracket => p.list s
  | .oBrace => p.object s
  | _ => (.error (), s)

/-- Embeds `Parser::unary`: recurse at the prefix precedence of the operator. -/
def unaryBody (p : Parsers) (s : PState) : PRes Expr :=
  let token := clonePrevious s
  let prePrec := (OPERATORS token.typ).pre.getD 0
  match p.expr prePrec false s with
  | (.error e, s) => (.error e, s)
  | (.ok rhs, s) => (.ok (.unaryE token rhs), s)

/-- Embeds `Parser::group`. -/
def groupBody (p : Parsers) (s : PState) : PRes Expr :=
  match p.parse_expr s with
  | (.error e, s) => (.error e, s)
  | (.ok e, s) =>
    match consume .cParen s with
    | (.error e2, s) => (.error e2, s)
    | (.ok _, s) => (.ok e, s)

/-- Embeds `Parser::lambda`: `||` opens a parameterless lambda, `|` a parameter
list terminated by `|`. -/
def lambdaBody (p : Parsers) (s : PState) : PRes Expr :=
  let token := clonePrevious s
  if token.typ = .orOr then
    match consume .oBrace s with
    | (.error e, s) => (.error e, s)
    | (.ok _, s) =>
      match p.block s with
      | (.error e, s) => (.error e, s)
      | (.ok body, s) => (.ok (.lambdaE token [] body), s)
  else
    match p.params .pipe s with
    | (.error e, s) => (.error e, s)
    | (.ok ps, s) =>
      match consume .oBrace s with
      | (.error e, s) => (.error e, s)
      | (.ok _, s) =>
        match p.block s with
        | (.error e, s) => (.error e, s)
        | (.ok body, s) => (.ok (.lambdaE token ps body), s)

/-- Embeds `Parser::params`. -/
def paramsBody (p : Parsers) (closing : TokenType) (s : PState) :
    PRes (List Token) :=
  let (b, s) := checkConsume closing s
  if b then (.ok [], s)
  else
    match identifierF s with
    | (.error e, s) => (.error e, s)
    | (.ok first, s) => p.paramsLoop closing [first] s

/-- The `while check_consume(Comma)` loop of `Parser::params`. -/
def paramsLoopBody (p : Parsers) (closing : TokenType) (items : List Token)
    (s : PState) : PRes (List Token) :=
  let (b, s) := checkConsume .comma s
  if b then
    let (b2, s) := checkConsume closing s
    if b2 then (.ok items, s)
    else
      match identifierF s with
      | (.error e, s) => (.error e, s)
      | (.ok t, s) => p.paramsLoop closing (items ++ [t]) s
  else
    match consume closing s with
    | (.error e, s) => (.error e, s)
    | (.ok _, s) => (.ok items, s)

/-- Embeds `Parser::expr`: consume a token, build the left operand (clearing
`can_assign` for groups and lambdas), then run the infix/postfix loop. -/
def exprBody (p : Parsers) (minPrec : Nat) (canAssign : Bool) (s : PState) :
    PRes Expr :=
  let (token, s) := nextTok s
  let canAssign2 :=
    match token.typ with
    | .oParen | .pipe | .orOr => false
    | _ => canAssign
  let head : PRes Expr :=
    match token.typ with
    | .identifier | .number | .string | .true_ | .false_ | .nil
    | .oBracket | .oBrace => p.literal s
    | .minus | .bang => p.unary s
    | .oParen => p.group s
    | .pipe | .orOr => p.lambda s
    | _ => (.error (), perr (.expectedExpr token) s)
  match head with
  | (.error e, s) => (.error e, s)
  | (.ok e0, s) => p.exprLoop minPrec canAssign2 e0 s

/-- The infix/postfix loop of `Parser::expr`: while the next token is not a
newline or EOF, consume an infix operator of precedence `≤ minPrec`
(recursing with `precedence − 1` for left-associative operators and with
`precedence` for right-associative ones) or a postfix operator (`(` call,
`.` get/set, `[` get/set). -/
def exprLoopBody (p : Parsers) (minPrec : Nat) (canAssign : Bool)
    (expr : Expr) (s : PState) : PRes Expr :=
  let (isNl, s) := check .newline s
  if isNl then (.ok expr, s)
  else
    let (isEnd, s) := atEnd s
    if isEnd then (.ok expr, s)
    else
      let (token, s) := peek true s
      let row := OPERATORS token.typ
      match row.bin with
      | some binPrec =>
        if minPrec < binPrec then (.ok expr, s)
        else
          let assoc := row.assoc.getD .left
          let canAssign := if token.typ = .equal then canAssign else false
          let s := advance s
          let s :=
            if token.typ = .equal ∧ canAssign = false then
              perr (.invalidRhs token) s
            else s
          let nextPrec :=
            match assoc with
            | .right => binPrec
            | .left => binPrec - 1
          match p.expr nextPrec canAssign s with
          | (.error e, s) => (.error e, s)
          | (.ok rhs, s) =>
            p.exprLoop minPrec canAssign (.binaryE token expr rhs) s
      | none =>
        match row.post with
        | some postPrec =>
          if minPrec < postPrec then (.ok expr, s)
          else
            let s := advance s
            match token.typ with
            | .oParen =>
              match p.exprs .cParen s with
              | (.error e, s) => (.error e, s)
              | (.ok args, s) =>
                p.exprLoop minPrec canAssign (.callE token expr args) s
            | .period =>
              match consume .identifier s with
              | (.error e, s) => (.error e, s)
              | (.ok _, s) =>
                let key := Expr.literal (.stringL (clonePrevious s))
                let (pk, s) := peek true s
                if BINARY_SET.contains pk.typ then
                  let (tok2, s) := nextTok s
                  let s :=
                    if canAssign = false then perr (.invalidRhs tok2) s
                    else s
                  match p.expr postPrec true s with
                  | (.error e, s) => (.error e, s)
                  | (.ok v, s) =>
                    p.exprLoop minPrec canAssign (.setE tok2 expr key v) s
                else
                  p.exprLoop minPrec canAssign (.getE token expr key) s
            | .oBracket =>
              match p.parse_expr s with
              | (.error e, s) => (.error e, s)
              | (.ok key, s) =>
                match consume .cBracket s with
                | (.error e, s) => (.error e, s)
                | (.ok _, s) =>
                  let (pk, s) := peek true s
                  if BINARY_SET.contains pk.typ then
                    let binPrec2 := (OPERATORS pk.typ).bin.getD 0
                    let (tok2, s) := nextTok s
                    let s :=
                      if canAssign = false then perr (.invalidRhs tok2) s
                      else s
                    match p.expr binPrec2 true s with
                    | (.error e, s) => (.error e, s)
                    | (.ok v, s) =>
                      p.exprLoop minPrec canAssign (.setE tok2 expr key v) s
                  else
                    p.exprLoop minPrec canAssign (.getE token expr key) s
            | _ => (.error (), s)
        | none => (.ok expr, s)

/-- Embeds `Parser::parse_expr`: the default precedence floor is 9 (weakest) and
assignment starts out legal. -/
def parseExprBody (p : Parsers) (s : PState) : PRes Expr :=
  p.expr 9 true s

/-- Embeds `Parser::block`. -/
def blockBody (p : Parsers) (s : PState) : PRes Stml :=
  match p.blockLoop [] s with
  | (.error e, s) => (.error e, s)
  | (.ok decls, s) =>
    match consume .cBrace s with
    | (.error e, s) => (.error e, s)
    | (.ok _, s) => (.ok (.blockS decls), s)

/-- The declaration loop of `Parser::block`. -/
def blockLoopBody (p : Parsers) (decls : List Stml) (s : PState) :
    PRes (List Stml) :=
  let (b, s) := check .cBrace s
  if b then (.ok decls, s)
  else
    let (e, s) := atEnd s
    if e then (.ok decls, s)
    else
      match p.decl s with
      | (.error e2, s) => (.error e2, s)
      | (.ok d, s) => p.blockLoop (decls ++ [d]) s

/-- Embeds `Parser::return_stml`.  Note: when the keyword is immediately followed
by a newline the source builds `Stml::Throw(token, None)` — not
`Stml::Return` — the embedding mirrors that line for line
(`src/قتام/src/parser.rs:409-415`). -/
def returnStmlBody (p : Parsers) (s : PState) : PRes Stml :=
  let token := clonePrevious s
  let (b, s) := check .newline s
  if b then (.ok (.throwS token none), s)
  else
    match p.parse_expr s with
    | (.error e, s) => (.error e, s)
    | (.ok e, s) => (.ok (.returnS token (some e)), s)

/-- Embeds `Parser::throw_stml`. -/
def throwStmlBody (p : Parsers) (s : PState) : PRes Stml :=
  let token := clonePrevious s
  let (b, s) := check .newline s
  if b then (.ok (.throwS token none), s)
  else
    match p.parse_expr s with
    | (.error e, s) => (.error e, s)
    | (.ok e, s) => (.ok (.throwS token (some e)), s)

/-- Embeds `Parser::function_decl`. -/
def functionDeclBody (p : Parsers) (s : PState) : PRes Stml :=
  match consume .identifier s with
  | (.error e, s) => (.error e, s)
  | (.ok _, s) =>
    let name := clonePrevious s
    match consume .oParen s with
    | (.error e, s) => (.error e, s)
    | (.ok _, s) =>
      match p.params .cParen s with
      | (.error e, s) => (.error e, s)
      | (.ok ps, s) =>
        match consume .oBrace s with
        | (.error e, s) => (.error e, s)
        | (.ok _, s) =>
          match p.block s with
          | (.error e, s) => (.error e, s)
          | (.ok body, s) => (.ok (.functionDecl name ps body), s)

/-- Embeds `Parser::expr_stml`. -/
def exprStmlBody (p : Parsers) (s : PState) : PRes Stml :=
  match p.parse_expr s with
  | (.error e, s) => (.error e, s)
  | (.ok e, s) => (.ok (.exprS e), s)

/-- Embeds `Parser::while_stml`. -/
def whileStmlBody (p : Parsers) (s : PState) : PRes Stml :=
  match consume .oParen s with
  | (.error e, s) => (.error e, s)
  | (.ok _, s) =>
    match p.parse_expr s with
    | (.error e, s) => (.error e, s)
    | (.ok cond, s) =>
      match consume .cParen s with
      | (.error e, s) => (.error e, s)
      | (.ok _, s) =>
        match consume .oBrace s with
        | (.error e, s) => (.error e, s)
        | (.ok _, s) =>
          match p.block s with
          | (.error e, s) => (.error e, s)
          | (.ok body, s) => (.ok (.whileS cond body), s)

/-- Embeds `Parser::loop_stml`. -/
def loopStmlBody (p : Parsers) (s : PState) : PRes Stml :=
  match consume .oBrace s with
  | (.error e, s) => (.error e, s)
  | (.ok _, s) =>
    match p.block s with
    | (.error e, s) => (.error e, s)
    | (.ok body, s) => (.ok (.loopS body), s)

/-- Embeds `Parser::try_catch`. -/
def tryCatchBody (p : Parsers) (s : PState) : PRes Stml :=
  match consume .oBrace s with
  | (.error e, s) => (.error e, s)
  | (.ok _, s) =>
    match p.block s with
    | (.error e, s) => (.error e, s)
    | (.ok body, s) =>
      match consume .kCatch s with
      | (.error e, s) => (.error e, s)
      | (.ok _, s) =>
        match consume .oParen s with
        | (.error e, s) => (.error e, s)
        | (.ok _, s) =>
          match consume .identifier s with
          | (.error e, s) => (.error e, s)
          | (.ok _, s) =>
            let name := clonePrevious s
            match consume .cParen s with
            | (.error e, s) => (.error e, s)
            | (.ok _, s) =>
              match consume .oBrace s with
              | (.error e, s) => (.error e, s)
              | (.ok _, s) =>
                match p.block s with
                | (.error e, s) => (.error e, s)
                | (.ok catchBody, s) =>
                  (.ok (.tryCatch body name catchBody), s)

/-- Embeds `Parser::if_else_stml`. -/
def ifElseBody (p : Parsers) (s : PState) : PRes Stml :=
  match consume .oParen s with
  | (.error e, s) => (.error e, s)
  | (.ok _, s) =>
    match p.parse_expr s with
    | (.error e, s) => (.error e, s)
    | (.ok cond, s) =>
      match consume .cParen s with
      | (.error e, s) => (.error e, s)
      | (.ok _, s) =>
        match consume .oBrace s with
        | (.error e, s) => (.error e, s)
        | (.ok _, s) =>
          match p.block s with
          | (.error e, s) => (.error e, s)
          | (.ok ifBody, s) =>
            match p.elifsLoop [] s with
            | (.error e, s) => (.error e, s)
            | (.ok elifs, s) =>
              let (b, s) := checkConsume .kElse s
              if b then
                match consume .oBrace s with
                | (.error e, s) => (.error e, s)
                | (.ok _, s) =>
                  match p.block s with
                  | (.error e, s) => (.error e, s)
                  | (.ok elseBody, s) =>
                    (.ok (.ifElse cond ifBody elifs (some elseBody)), s)
              else (.ok (.ifElse cond ifBody elifs none), s)

/-- The `while check_consume(ElseIf)` loop of `Parser::if_else_stml`. -/
def elifsLoopBody (p : Parsers) (elifs : List (Expr × Stml)) (s : PState) :
    PRes (List (Expr × Stml)) :=
  let (b, s) := checkConsume .kElseIf s
  if b then
    match consume .oParen s with
    | (.error e, s) => (.error e, s)
    | (.ok _, s) =>
      match p.parse_expr s with
      | (.error e, s) => (.error e, s)
      | (.ok cond, s) =>
        match consume .cParen s with
        | (.error e, s) => (.error e, s)
        | (.ok _, s) =>
          match consume .oBrace s with
          | (.error e, s) => (.error e, s)
          | (.ok _, s) =>
            match p.block s with
            | (.error e, s) => (.error e, s)
            | (.ok body, s) => p.elifsLoop (elifs ++ [(cond, body)]) s
  else (.ok elifs, s)

/-- Embeds `Parser::var_decl`. -/
def varDeclBody (p : Parsers) (s : PState) : PRes Stml :=
  let token := clonePrevious s
  match consume .identifier s with
  | (.error e, s) => (.error e, s)
  | (.ok _, s) =>
    let name := clonePrevious s
    let (b, s) := checkConsume .equal s
    if b then
      match p.parse_expr s with
      | (.error e, s) => (.error e, s)
      | (.ok init, s) => (.ok (.varDecl token name (some init)), s)
    else (.ok (.varDecl token name none), s)

/-- Embeds `Parser::for_in`. -/
def forInBody (p : Parsers) (s : PState) : PRes Stml :=
  let token := clonePrevious s
  match consume .oParen s with
  | (.error e, s) => (.error e, s)
  | (.ok _, s) =>
    match consume .identifier s with
    | (.error e, s) => (.error e, s)
    | (.ok _, s) =>
      let element := clonePrevious s
      match consume .kIn s with
      | (.error e, s) => (.error e, s)
      | (.ok _, s) =>
        match p.parse_expr s with
        | (.error e, s) => (.error e, s)
        | (.ok iter, s) =>
          match consume .cParen s with
          | (.error e, s) => (.error e, s)
          | (.ok _, s) =>
            match consume .oBrace s with
            | (.error e, s) => (.error e, s)
            | (.ok _, s) =>
              match p.block s with
              | (.error e, s) => (.error e, s)
              | (.ok body, s) => (.ok (.forIn token element iter body), s)

/-- Embeds `Parser::stml`: keyword-directed statement dispatch. -/
def stmlBody (p : Parsers) (s : PState) : PRes Stml :=
  let (b, s) := checkConsume .kWhile s
  if b then p.while_stml s
  else
    let (b, s) := checkConsume .kLoop s
    if b then p.loop_stml s
    else
      let (b, s) := checkConsume .kIf s
      if b then p.if_else_stml s
      else
        let (b, s) := checkConsume .kTry s
        if b then p.try_catch s
        else
          let (b, s) := checkConsume .oBrace s
          if b then p.block s
          else
            let (b, s) := checkConsume .kBreak s
            if b then breakStmlF s
            else
              let (b, s) := checkConsume .kContinue s
              if b then continueStmlF s
              else
                let (b, s) := checkConsume .kReturn s
                if b then p.return_stml s
                else
                  let (b, s) := checkConsume .kThrow s
                  if b then p.throw_stml s
                  else
                    let (b, s) := checkConsume .kFor s
                    if b then p.for_in s
                    else p.expr_stml s

/-- Embeds `Parser::exported_decl`. -/
def exportedDeclBody (p : Parsers) (s : PState) : PRes Stml :=
  let token := clonePrevious s
  let (b, s) := checkConsume .kFunction s
  if b then
    match p.function_decl s with
    | (.error e, s) => (.error e, s)
    | (.ok d, s) => (.ok (.exportS token d), s)
  else
    let (b2, s) := checkConsume .kVar s
    if b2 then
      match p.var_decl s with
      | (.error e, s) => (.error e, s)
      | (.ok d, s) => (.ok (.exportS token d), s)
    else
      let bad := currentToken s
      (.error (), perr (.expectedInstead [.kFunction, .kVar] bad) s)

/-- Embeds `Parser::decl`. -/
def declBody (p : Parsers) (s : PState) : PRes Stml :=
  let (b, s) := checkConsume .kFunction s
  if b then p.function_decl s
  else
    let (b, s) := checkConsume .kVar s
    if b then p.var_decl s
    else
      let (b, s) := checkConsume .kExport s
      if b then p.exported_decl s
      else
        let (b, s) := checkConsume .kImport s
        if b then importedDeclF s
        else p.stml s

/-- The fuel-zero bundle: every parsing function gives up (the Rust
recursion never reaches this level on the inputs considered, since each
call consumes input). -/
def parsersZero : Parsers where
  exprs := fun _ s => (.error (), s)
  exprsLoop := fun _ _ s => (.error (), s)
  list := fun s => (.error (), s)
  prop := fun s => (.error (), s)
  props := fun s => (.error (), s)
  propsLoop := fun _ s => (.error (), s)
  object := fun s => (.error (), s)
  literal := fun s => (.error (), s)
  unary := fun s => (.error (), s)
  group := fun s => (.error (), s)
  lambda := fun s => (.error (), s)
  params := fun _ s => (.error (), s)
  paramsLoop := fun _ _ s => (.error (), s)
  expr := fun _ _ s => (.error (), s)
  exprLoop := fun _ _ _ s => (.error (), s)
  parse_expr := fun s => (.error (), s)
  block := fun s => (.error (), s)
  blockLoop := fun _ s => (.error (), s)
  return_stml := fun s => (.error (), s)
  throw_stml := fun s => (.error (), s)
  function_decl := fun s => (.error (), s)
  expr_stml := fun s => (.error (), s)
  while_stml := fun s => (.error (), s)
  loop_stml := fun s => (.error (), s)
  try_catch := fun s => (.error (), s)
  if_else_stml := fun s => (.error (), s)
  elifsLoop := fun _ s => (.error (), s)
  var_decl := fun s => (.error (), s)
  for_in := fun s => (.error (), s)
  stml := fun s => (.error (), s)
  exported_decl := fun s => (.error (), s)
  decl := fun s => (.error (), s)

/-- One fuel level: each method body calls the next-lower bundle. -/
def parsersStep (p : Parsers) : Parsers where
  exprs := exprsBody p
  exprsLoop := exprsLoopBody p
  list := listBody p
  prop := propBody p
  props := propsBody p
  propsLoop := propsLoopBody p
  object := objectBody p
  literal := literalBody p
  unary := unaryBody p
  group := groupBody p
  lambda := lambdaBody p
  params := paramsBody p
  paramsLoop := paramsLoopBody p
  expr := exprBody p
  exprLoop := exprLoopBody p
  parse_expr := parseExprBody p
  block := blockBody p
  blockLoop := blockLoopBody p
  return_stml := returnStmlBody p
  throw_stml := throwStmlBody p
  function_decl := functionDeclBody p
  expr_stml := exprStmlBody p
  while_stml := whileStmlBody p
  loop_stml := loopStmlBody p
  try_catch := tryCatchBody p
  if_else_stml := ifElseBody p
  elifsLoop := elifsLoopBody p
  var_decl := varDeclBody p
  for_in := forInBody p
  stml := stmlBody p
  exported_decl := exportedDeclBody p
  decl := declBody p

/-- The parser at a given fuel level. -/
def P : Nat → Parsers
  | 0 => parsersZero
  | fuel + 1 => parsersStep (P fuel)

/-- Embeds `Parser::parse_expr` at a fuel level (the public expression entry
point). -/
def parseExprF (fuel : Nat) (s : PState) : PRes Expr :=
  (P fuel).parse_expr s

/-- Embeds `Parser::sync`: advance to the next token in the boundary set. -/
def syncF : Nat → PState → PState
  | 0, s => s
  | fuel + 1, s =>
    let (b, s) := check .eof s
    if b then s
    else
      let (t, s) := peek true s
      if BOUNDARIES.contains t.typ then s else syncF fuel (advance s)

/-- The declaration loop of `Parser::parse`: on error, resynchronise and
continue. -/
def parseLoopF : Nat → List Stml → PState → List Stml × PState
  | 0, decls, s => (decls, s)
  | fuel + 1, decls, s =>
    let (e, s) := atEnd s
    if e then (decls, s)
    else
      match (P fuel).decl s with
      | (.ok d, s) => parseLoopF fuel (decls ++ [d]) s
      | (.error _, s) => parseLoopF fuel decls (syncF fuel s)

/-- Embeds `Parser::parse`: parse declarations to EOF; succeed only if no error
was recorded. -/
def parseF (fuel : Nat) (s : PState) : PRes (List Stml) :=
  let (decls, s1) := parseLoopF fuel [] s
  if s1.errs.isEmpty then (.ok decls, s1) else (.error (), s1)


/-- The initial parser state on a token stream. -/
def initP (toks : List Token) : PState :=
  { toks := toks, prev := none, errs := [] }

/-! ## The virtual machine (`src/src/vm.rs`)

The value model (`value.rs`), chunk encoding (`chunk.rs`) and native
registry (`natives.rs`) are absent from the sources and are modelled from
the spec where needed; `vm.rs` itself — `Vm`, `Frame`, `Handler`,
`Backtrace`, `get_absolute_idx` and the interpreter loop `Frame::run` — is
embedded line by line.  `Rc<RefCell<UpValue>>` cells, `Rc<RefCell<Vec>>`
lists and `Rc<RefCell<HashMap>>` objects are shared mutable heap objects;
the embedding gives each a numeric reference into an explicit heap carried
in the `Vm` state, so that sharing by identity is the sharing of
references. -/

/-- Embeds `Arity`, from the spec's value model (`value.rs` is absent):
`Fixed(n)` requires exactly `n` arguments, `Variadic(n)` at least `n`. -/
inductive Arity where
  | fixed (n : Nat)
  | variadic (n : Nat)
deriving DecidableEq

mutual

/-- A compiled function: bytecode, constant pool, the parallel
instruction-offset → token map, arity and optional name, from the spec's
`Function`/`Chunk` model (`chunk.rs` is absent; the VM token only feeds
backtraces, so it is a bare number here). -/
inductive FuncV where
  | mk (code : List Nat) (constants : List Value) (tokens : List Nat)
      (arity : Arity) (name : Option String)

/-- Modelled from the spec: `value.rs` is absent.  The tagged `Value`
union: number (an `f64`; modelled as its integer value plus an
"is integer-valued / fractional part is zero" flag — every program in this
development computes on integer-valued numbers, where `f64` arithmetic is
exact), boolean, nil, string, and the heap objects: list and object by heap
reference, closure (function plus captured upvalue-cell ids) and the bare
function that the `Closure` opcode consumes. -/
inductive Value where
  | number (i : Int) (isInt : Bool)
  | boolean (b : Bool)
  | nil
  | stringV (s : String)
  | listRef (r : Nat)
  | objRef (r : Nat)
  | closure (fn : FuncV) (upvals : List Nat)
  | function (fn : FuncV)

end

/-- Embeds `UpValue`, from the spec's value model: *Open* holds an absolute stack
slot, *Closed* owns the captured value. -/
inductive UpValue where
  | Open (idx : Nat)
  | Closed (v : Value)

/-- Embeds `Handler`, from `src/src/vm.rs`: the saved stack length and the catch
instruction offset. -/
structure Handler where
  slots : Nat
  ip : Nat

/-- Embeds `BacktraceFrame`, from `src/src/vm.rs`: the failing token and the
frame's function name. -/
structure BtFrame where
  token : Nat
  name : Option String

def FuncV.code : FuncV → List Nat
  | .mk c _ _ _ _ => c

def FuncV.constants : FuncV → List Value
  | .mk _ c _ _ _ => c

def FuncV.tokens : FuncV → List Nat
  | .mk _ _ t _ _ => t

def FuncV.arity : FuncV → Arity
  | .mk _ _ _ a _ => a

def FuncV.name : FuncV → Option String
  | .mk _ _ _ _ n => n

/-- Embeds `Vm`, from `src/src/vm.rs`, plus the explicit heaps that stand in for
`Rc<RefCell<…>>` sharing: `upStore` maps upvalue-cell ids to their state
(`openUpValues` lists the ids of the currently open cells, in creation
order, as the source's `open_up_values` vector does), `listHeap`/`objHeap`
hold the mutable lists/objects.  `caught` is ghost instrumentation with no
counterpart in the source and no effect on execution: it records, at the
moment a propagated error is caught by a handler in the `Call` error
branch, the caught value and the backtrace accumulated so far (the source
drops that backtrace on catch, so nothing else could observe it). -/
structure Vm where
  stack : List Value
  globals : List (String × Value)
  openUpValues : List Nat
  upStore : List (Nat × UpValue)
  nextUp : Nat
  listHeap : List (List Value)
  objHeap : List (List (String × Value))
  caught : List (Value × List BtFrame)

/-- Embeds `Frame`, from `src/src/vm.rs` (the `Closure` variant; native frames
belong to the external native registry): the running closure (function +
captured cells), instruction pointer, `slots` base, the calling closure's
upvalue list (`enclosing_up_values`) and the handler stack (most recent
first; the source uses `Vec` push/pop at the end). -/
structure Frame where
  fn : FuncV
  upvals : List Nat
  ip : Nat
  slots : Nat
  encUps : List Nat
  handlers : List Handler

/-- Association-list lookup standing in for `HashMap::get`. -/
def aLookup (k : String) : List (String × Value) → Option Value
  | [] => none
  | (k2, v) :: r => if k2 = k then some v else aLookup k r

/-- Association-list insert standing in for `HashMap::insert`
(replace or append). -/
def aInsert (k : String) (v : Value) : List (String × Value) →
    List (String × Value)
  | [] => [(k, v)]
  | (k2, v2) :: r => if k2 = k then (k, v) :: r else (k2, v2) :: aInsert k v r

/-- Association-list membership standing in for `HashMap::contains_key`. -/
def aContains (k : String) : List (String × Value) → Bool
  | [] => false
  | (k2, _) :: r => if k2 = k then true else aContains k r

/-- Look a cell up in the upvalue store. -/
def upLookup (store : List (Nat × UpValue)) (id : Nat) : Option UpValue :=
  (store.find? fun p => p.1 = id).map (·.2)

/-- Overwrite a cell in the upvalue store (`*cell.borrow_mut() = …`). -/
def upSet (store : List (Nat × UpValue)) (id : Nat) (u : UpValue) :
    List (Nat × UpValue) :=
  store.map fun p => if p.1 = id then (id, u) else p

/-! Modelled from the spec: the `Value` operations of the absent
`value.rs`, restricted to the integer-valued numbers this development
computes on. -/

/-- Embeds `Value::is_number`. -/
def Value.is_number : Value → Bool
  | .number _ _ => true
  | _ => false

/-- Embeds `Value::is_string`. -/
def Value.is_string : Value → Bool
  | .stringV _ => true
  | _ => false

/-- Embeds `Value::is_int`: a number whose fractional part is zero (spec §9:
"list indices require integer-valued numbers (fractional part zero)"). -/
def Value.is_int : Value → Bool
  | .number _ t => t
  | _ => false

/-- Embeds `Value::as_int`. -/
def Value.as_int : Value → Int
  | .number i _ => i
  | _ => 0

/-- Truthiness: `false` and `nil` are falsy, everything else truthy. -/
def Value.is_truthy : Value → Bool
  | .boolean false => false
  | .nil => false
  | _ => true

/-- Embeds `Value::to_string` (rendering; only its string/number/bool/nil cases
matter to the embedded programs, whose global names are strings). -/
def Value.to_string : Value → String
  | .stringV s => s
  | .number i _ => toString i
  | .boolean true => "صحيح"
  | .boolean false => "خطأ"
  | .nil => "عدم"
  | _ => ""

/-- Embeds `Value::are_numbers`. -/
def areNumbers (a b : Value) : Bool :=
  a.is_number && b.is_number

/-- Embeds `+`: concatenates when either operand is a string, otherwise numeric
(spec §4.3; no claim exercises the non-number non-string case, where the
model yields nil). -/
def vAdd : Value → Value → Value
  | .number i ti, .number j tj => .number (i + j) (ti && tj)
  | .stringV s, b => .stringV (s ++ b.to_string)
  | a, .stringV s => .stringV (a.to_string ++ s)
  | _, _ => .nil

def vSub : Value → Value → Value
  | .number i ti, .number j tj => .number (i - j) (ti && tj)
  | _, _ => .nil

def vMul : Value → Value → Value
  | .number i ti, .number j tj => .number (i * j) (ti && tj)
  | _, _ => .nil

/-- Division (guarded by `are_dividable` in the VM; `f64` division is
outside the integer-valued model and no claim depends on it). -/
def vDiv : Value → Value → Value
  | .number i ti, .number j tj => .number (i / j) (ti && tj)
  | _, _ => .nil

def vRem : Value → Value → Value
  | .number i ti, .number j tj => .number (i % j) (ti && tj)
  | _, _ => .nil

/-- Negation of a number (the VM checks `is_number` first). -/
def vNeg : Value → Value
  | .number i t => .number (-i) t
  | v => v

/-- Embeds `==`: structural for primitives (strings by contents), reference
equality for heap lists/objects; closure/function comparison is `Rc`
pointer identity in the source, which the embedded programs never
exercise (modelled as false). -/
def vEq : Value → Value → Bool
  | .number i ti, .number j tj => decide (i = j) && decide (ti = tj)
  | .boolean a, .boolean b => decide (a = b)
  | .nil, .nil => true
  | .stringV a, .stringV b => decide (a = b)
  | .listRef a, .listRef b => decide (a = b)
  | .objRef a, .objRef b => decide (a = b)
  | _, _ => false

/-- Ordered comparison on numbers (integer-valued model). -/
def vLt (a b : Value) : Bool :=
  decide (a.as_int < b.as_int)

/-! ### The pieces of `Frame::run`'s `Get`/`Set` dispatch -/

/-- Embeds `get_absolute_idx`, from `src/src/vm.rs:473-485`: a non-negative index
must be `< len`; a negative index `i` with `-i ≤ len` resolves to
`len + i`. -/
def get_absolute_idx (idx : Int) (len : Nat) : Except Unit Nat :=
  if 0 ≤ idx then
    if (len : Int) ≤ idx then .error ()
    else .ok idx.toNat
  else
    if (len : Int) < -idx then .error ()
    else .ok ((len : Int) + idx).toNat

/-- The list branch of `Get` (`src/src/vm.rs:699-710`): the key must be an
integer-valued number, the index is normalised by `get_absolute_idx`, and
failure is the corresponding thrown message. -/
def listGet (key : Value) (items : List Value) : Except String Value :=
  if key.is_int = false then .error "يجب أن يكون رقم العنصر عدداً صحيحاً"
  else
    match get_absolute_idx key.as_int items.length with
    | .error _ => .error "لا يوجد عنصر بهذا الرقم"
    | .ok idx => .ok (items.getD idx .nil)

/-- The string branch of `Get` (`src/src/vm.rs:711-724`): positions and the
length are measured with `str::chars` — Unicode characters, embedded as the
string's character list — and the result is the one-character string at the
normalised position. -/
def stringGet (key : Value) (s : String) : Except String Value :=
  if key.is_int = false then .error "يجب أن يكون رقم العنصر عدداً صحيحاً"
  else
    match get_absolute_idx key.as_int s.data.length with
    | .error _ => .error "لا يوجد عنصر بهذا الرقم"
    | .ok idx => .ok (.stringV ⟨[s.data.getD idx 'ا']⟩)

/-- The object branch of `Get` (`src/src/vm.rs:685-698`): the key must be a
string and the property must exist. -/
def objGet (key : Value) (items : List (String × Value)) :
    Except String Value :=
  if key.is_string = false then .error "يجب أن يكون اسم الخاصية نصاً"
  else
    match aLookup key.to_string items with
    | some v => .ok v
    | none => .error "لا يوجد قيمة بهذا الاسم"

/-! ### Vm primitives (`src/src/vm.rs`) -/

/-- The stack is the source's `Vec<Value>`: index 0 is the bottom, pushes
and pops happen at the end.  `pop` (the source unwraps; an empty stack is a
fatal VM invariant violation, never reached by well-formed bytecode). -/
def Vm.popV (vm : Vm) : Value × Vm :=
  (vm.stack.getLastD .nil, { vm with stack := vm.stack.dropLast })

def Vm.pushV (vm : Vm) (v : Value) : Vm :=
  { vm with stack := vm.stack ++ [v] }

/-- Embeds `Frame::last` (unwrapped in the source). -/
def Vm.lastV (vm : Vm) : Value :=
  vm.stack.getLastD .nil

/-- Embeds `Frame::get` (direct indexing in the source). -/
def Vm.getV (vm : Vm) (i : Nat) : Value :=
  vm.stack.getD i .nil

/-- Embeds `Frame::get_mut` assignment. -/
def Vm.setV (vm : Vm) (i : Nat) (v : Value) : Vm :=
  { vm with stack := vm.stack.set i v }

/-- The loop body of `Vm::close_up_values`: every open cell pointing at a
slot `≥ location` is closed in place over the slot's current value; the
rest stay open.  Returns the new open list and store. -/
def closeCells (stack : List Value) (location : Nat) :
    List Nat → List (Nat × UpValue) → List Nat × List (Nat × UpValue)
  | [], store => ([], store)
  | id :: rest, store =>
    let idx :=
      match upLookup store id with
      | some (.Open i) => i
      | _ => 0
    if location ≤ idx then
      closeCells stack location rest
        (upSet store id (.Closed (stack.getD idx .nil)))
    else
      let (ns, st) := closeCells stack location rest store
      (id :: ns, st)

/-- Embeds `Vm::close_up_values`. -/
def Vm.closeUpValues (vm : Vm) (location : Nat) : Vm :=
  let (op, st) := closeCells vm.stack location vm.openUpValues vm.upStore
  { vm with openUpValues := op, upStore := st }

/-- Embeds `Frame::truncate`: close the upvalues at or above the new length, then
truncate the stack. -/
def Vm.truncateV (vm : Vm) (len : Nat) : Vm :=
  let vm := vm.closeUpValues len
  { vm with stack := vm.stack.take len }

/-- Embeds `Vm::get_up_value`: the open cell already pointing at the absolute slot
`idx`, if any (the open list never holds a closed cell). -/
def Vm.getUpValueId (vm : Vm) (idx : Nat) : Option Nat :=
  vm.openUpValues.find? fun id =>
    match upLookup vm.upStore id with
    | some (.Open i) => decide (i = idx)
    | _ => false

/-- Embeds `Vm::append_up_value`: create a fresh open cell over slot `idx` and
append it to the open list. -/
def Vm.appendUpValue (vm : Vm) (idx : Nat) : Nat × Vm :=
  let id := vm.nextUp
  (id,
    { vm with
      upStore := vm.upStore ++ [(id, .Open idx)]
      openUpValues := vm.openUpValues ++ [id]
      nextUp := id + 1 })

/-- Embeds `Vm::check_arity`, from `src/src/vm.rs:73-94` (messages verbatim,
including the source's own spelling). -/
def check_arity (arity : Arity) (argc : Nat) : Except Value Unit :=
  match arity with
  | .fixed n =>
    if argc ≠ n then
      .error (.stringV ("توقعت عدد " ++ toString n ++
        " من المدخلات ولكن حصلت على " ++ toString argc ++ " بدلاً من ذللك"))
    else .ok ()
  | .variadic n =>
    if argc < n then
      .error (.stringV ("توقعت على الأقل عدد " ++ toString n ++
        " من المدخلات ولكن حصلت على " ++ toString argc ++ " بدلاً من ذلك"))
    else .ok ()

/-! ### The instruction set (`chunk::Instruction`) -/

/-- The opcode inventory of the spec's §4.2 table, as dispatched on by
`Frame::run` (`Unknown` is the catch-all for undefined bytes). -/
inductive Instruction where
  | Pop | Constant8 | Constant16 | Negate | Add | Subtract | Multiply
  | Divide | Remainder | Not | Equal | Greater | GreaterEqual | Less
  | LessEqual | Jump | JumpIfFalse | JumpIfTrue | Loop
  | DefineGlobal | SetGlobal | GetGlobal | GetLocal | SetLocal
  | BuildList | BuildObject | Get | Set | Closure | Call | Return
  | GetUpValue | SetUpValue | CloseUpValue | AppendHandler | PopHandler
  | Throw | Unknown
deriving DecidableEq

/-- Modelled from the spec: `chunk.rs` (the `u8 → Instruction` conversion)
is absent; the numbering follows the spec's §4.2 table order.  `Frame::run`
is independent of the concrete numbers. -/
def instrOfByte : Nat → Instruction
  | 0 => .Pop
  | 1 => .Constant8
  | 2 => .Constant16
  | 3 => .Negate
  | 4 => .Add
  | 5 => .Subtract
  | 6 => .Multiply
  | 7 => .Divide
  | 8 => .Remainder
  | 9 => .Not
  | 10 => .Equal
  | 11 => .Greater
  | 12 => .GreaterEqual
  | 13 => .Less
  | 14 => .LessEqual
  | 15 => .Jump
  | 16 => .JumpIfFalse
  | 17 => .JumpIfTrue
  | 18 => .Loop
  | 19 => .DefineGlobal
  | 20 => .SetGlobal
  | 21 => .GetGlobal
  | 22 => .GetLocal
  | 23 => .SetLocal
  | 24 => .BuildList
  | 25 => .BuildObject
  | 26 => .Get
  | 27 => .Set
  | 28 => .Closure
  | 29 => .Call
  | 30 => .Return
  | 31 => .GetUpValue
  | 32 => .SetUpValue
  | 33 => .CloseUpValue
  | 34 => .AppendHandler
  | 35 => .PopHandler
  | 36 => .Throw
  | _ => .Unknown

/-- Modelled from the spec: `utils::combine` is absent; two-byte operands
are little-endian. -/
def combine (a b : Nat) : Nat :=
  a + 256 * b

/-- Embeds `Frame::read_byte`: the operand byte after the opcode (unwrapped in the
source). -/
def Frame.readByte (fr : Frame) : Nat :=
  fr.fn.code.getD (fr.ip + 1) 0

/-- Embeds `Frame::read_2bytes`. -/
def Frame.read2 (fr : Frame) : Nat :=
  combine (fr.fn.code.getD (fr.ip + 1) 0) (fr.fn.code.getD (fr.ip + 2) 0)

/-- Embeds `Chunk::get_constant` (indexing in the source). -/
def Frame.constant (fr : Frame) (idx : Nat) : Value :=
  fr.fn.constants.getD idx .nil

/-- Embeds `BacktraceFrame::new`: the token at the current offset plus the
closure's name. -/
def Frame.curBt (fr : Frame) : BtFrame :=
  ⟨fr.fn.tokens.getD fr.ip 0, fr.fn.name⟩

/-- The result of `Frame::run`: `Ok(Option<Value>)`, or a thrown value with
the accumulated backtrace; `stuck` covers the source's `unreachable!()` /
`todo!()` / failed-`unwrap` panics (fatal VM invariant violations) and fuel
exhaustion. -/
inductive RunRes where
  | done (v : Option Value)
  | err (v : Value) (bt : List BtFrame)
  | stuck

/-- Embeds `Frame::string_to_err`: a VM-detected illegal operation becomes a
string `Value` paired with a one-entry backtrace for the current frame, and
`Frame::run` returns it as an error immediately. -/
def Frame.strErr (fr : Frame) (msg : String) : RunRes :=
  .err (.stringV msg) [fr.curBt]

/-- Read the `count` inline `(is_local, index)` pairs of a `Closure`
instruction, starting at `base = ip + 2`. -/
def readUpPairs (code : List Nat) (base : Nat) : Nat → List (Bool × Nat)
  | 0 => []
  | n + 1 =>
    readUpPairs code base n ++
      [(decide (code.getD (base + 2 * n) 0 ≠ 0),
        code.getD (base + 2 * n + 1) 0)]

/-- The upvalue-resolution loop of the `Closure` instruction
(`src/src/vm.rs:780-791`): a local capture reuses the open cell already at
that absolute slot, creating one only if absent; a non-local capture clones
(shares) the enclosing closure's cell. -/
def resolveUps (slots : Nat) (encUps : List Nat) :
    List (Bool × Nat) → Vm → List Nat × Vm
  | [], vm => ([], vm)
  | (isLocal, i) :: rest, vm =>
    if isLocal then
      let idx := slots + i
      match vm.getUpValueId idx with
      | some id =>
        let (r, vm) := resolveUps slots encUps rest vm
        (id :: r, vm)
      | none =>
        let (id, vm) := vm.appendUpValue idx
        let (r, vm) := resolveUps slots encUps rest vm
        (id :: r, vm)
    else
      let (r, vm) := resolveUps slots encUps rest vm
      (encUps.getD i 0 :: r, vm)

/-- The pair-popping loop of `BuildObject`: `size` times, pop the value
then the name. -/
def buildObjPairs : Nat → Vm → List (String × Value) →
    List (String × Value) × Vm
  | 0, vm, acc => (acc, vm)
  | n + 1, vm, acc =>
    let (v, vm) := vm.popV
    let (nm, vm) := vm.popV
    buildObjPairs n vm (aInsert nm.to_string v acc)

/-- Embeds `Frame::run` (`src/src/vm.rs:466-896`), the interpreter loop, with a
fuel argument bounding the number of executed instructions (nested `Call`s
share the fuel).  Each case ends by re-entering the loop at
`ip + progress`, exactly as the source's `set_ip` does; running off the end
of the code (`cur_instr() == None`) is `Ok(None)`. -/
def run : Nat → Vm → Frame → RunRes × Vm
  | 0, vm, _ => (.stuck, vm)
  | fuel + 1, vm, fr =>
    match fr.fn.code.get? fr.ip with
    | none => (.done none, vm)
    | some b =>
      match instrOfByte b with
      | .Pop =>
        let (_, vm) := vm.popV
        run fuel vm { fr with ip := fr.ip + 1 }
      | .Constant8 =>
        let vm := vm.pushV (fr.constant fr.readByte)
        run fuel vm { fr with ip := fr.ip + 2 }
      | .Constant16 =>
        let vm := vm.pushV (fr.constant fr.read2)
        run fuel vm { fr with ip := fr.ip + 3 }
      | .Negate =>
        let (p, vm) := vm.popV
        if p.is_number = false then
          (fr.strErr "يجب أن يكون المعامل رقماً", vm)
        else
          run fuel (vm.pushV (vNeg p)) { fr with ip := fr.ip + 1 }
      | .Add =>
        let (b2, vm) := vm.popV
        let (a, vm) := vm.popV
        run fuel (vm.pushV (vAdd a b2)) { fr with ip := fr.ip + 1 }
      | .Subtract =>
        let (b2, vm) := vm.popV
        let (a, vm) := vm.popV
        if areNumbers a b2 = false then
          (fr.strErr "لا يقبل المعاملان الطرح من بعضهما", vm)
        else
          run fuel (vm.pushV (vSub a b2)) { fr with ip := fr.ip + 1 }
      | .Multiply =>
        let (b2, vm) := vm.popV
        let (a, vm) := vm.popV
        if areNumbers a b2 = false then
          (fr.strErr "لا يقبل المعاملان الضرب في بعضهما", vm)
        else
          run fuel (vm.pushV (vMul a b2)) { fr with ip := fr.ip + 1 }
      | .Divide =>
        let (b2, vm) := vm.popV
        let (a, vm) := vm.popV
        if areNumbers a b2 = false then
          (fr.strErr "لا يقبل المعاملان القسمة على بعضهما", vm)
        else
          run fuel (vm.pushV (vDiv a b2)) { fr with ip := fr.ip + 1 }
      | .Remainder =>
        let (b2, vm) := vm.popV
        let (a, vm) := vm.popV
        if areNumbers a b2 = false then
          (fr.strErr "لا يقبل المعاملان القسمة على بعضهما", vm)
        else
          run fuel (vm.pushV (vRem a b2)) { fr with ip := fr.ip + 1 }
      | .Not =>
        let (p, vm) := vm.popV
        run fuel (vm.pushV (.boolean (! p.is_truthy)))
          { fr with ip := fr.ip + 1 }
      | .Equal =>
        let (b2, vm) := vm.popV
        let (a, vm) := vm.popV
        run fuel (vm.pushV (.boolean (vEq a b2))) { fr with ip := fr.ip + 1 }
      | .Greater =>
        let (b2, vm) := vm.popV
        let (a, vm) := vm.popV
        if areNumbers a b2 = false then
          (fr.strErr "يجب أن يكون المعاملان أرقاماً", vm)
        else
          run fuel (vm.pushV (.boolean (vLt b2 a))) { fr with ip := fr.ip + 1 }
      | .GreaterEqual =>
        let (b2, vm) := vm.popV
        let (a, vm) := vm.popV
        if areNumbers a b2 = false then
          (fr.strErr "يجب أن يكون المعاملان أرقاماً", vm)
        else
          run fuel (vm.pushV (.boolean (! vLt a b2)))
            { fr with ip := fr.ip + 1 }
      | .Less =>
        let (b2, vm) := vm.popV
        let (a, vm) := vm.popV
        if areNumbers a b2 = false then
          (fr.strErr "يجب أن يكون المعاملان أرقاماً", vm)
        else
          run fuel (vm.pushV (.boolean (vLt a b2))) { fr with ip := fr.ip + 1 }
      | .LessEqual =>
        let (b2, vm) := vm.popV
        let (a, vm) := vm.popV
        if areNumbers a b2 = false then
          (fr.strErr "يجب أن يكون المعاملان أرقاماً", vm)
        else
          run fuel (vm.pushV (.boolean (! vLt b2 a)))
            { fr with ip := fr.ip + 1 }
      | .Jump =>
        run fuel vm { fr with ip := fr.ip + fr.read2 }
      | .JumpIfFalse =>
        if vm.lastV.is_truthy then
          run fuel vm { fr with ip := fr.ip + 3 }
        else
          run fuel vm { fr with ip := fr.ip + fr.read2 }
      | .JumpIfTrue =>
        if ! vm.lastV.is_truthy then
          run fuel vm { fr with ip := fr.ip + 3 }
        else
          run fuel vm { fr with ip := fr.ip + fr.read2 }
      | .Loop =>
        run fuel vm { fr with ip := fr.ip - fr.read2 }
      | .DefineGlobal =>
        let (nv, vm) := vm.popV
        let name := nv.to_string
        let (value, vm) := vm.popV
        if aContains name vm.globals then
          (fr.strErr "يوجد متغير بهذا الاسم", vm)
        else
          run fuel { vm with globals := aInsert name value vm.globals }
            { fr with ip := fr.ip + 1 }
      | .SetGlobal =>
        let (nv, vm) := vm.popV
        let name := nv.to_string
        let value := vm.lastV
        if aContains name vm.globals = false then
          (fr.strErr "لا يوجد متغير بهذا الاسم", vm)
        else
          run fuel { vm with globals := aInsert name value vm.globals }
            { fr with ip := fr.ip + 1 }
      | .GetGlobal =>
        let (nv, vm) := vm.popV
        let name := nv.to_string
        if aContains name vm.globals = false then
          (fr.strErr "لا يوجد متغير بهذا الاسم", vm)
        else
          run fuel (vm.pushV ((aLookup name vm.globals).getD .nil))
            { fr with ip := fr.ip + 1 }
      | .GetLocal =>
        let idx := fr.slots + fr.readByte
        run fuel (vm.pushV (vm.getV idx)) { fr with ip := fr.ip + 2 }
      | .SetLocal =>
        let idx := fr.slots + fr.readByte
        run fuel (vm.setV idx vm.lastV) { fr with ip := fr.ip + 2 }
      | .BuildList =>
        let size := fr.readByte
        let len := vm.stack.length
        let items := vm.stack.drop (len - size)
        let vm := { vm with stack := vm.stack.take (len - size) }
        let r := vm.listHeap.length
        let vm := { vm with listHeap := vm.listHeap ++ [items] }
        run fuel (vm.pushV (.listRef r)) { fr with ip := fr.ip + 2 }
      | .BuildObject =>
        let size := fr.readByte
        let (items, vm) := buildObjPairs size vm []
        let r := vm.objHeap.length
        let vm := { vm with objHeap := vm.objHeap ++ [items] }
        run fuel (vm.pushV (.objRef r)) { fr with ip := fr.ip + 2 }
      | .Get =>
        let (key, vm) := vm.popV
        let (obj, vm) := vm.popV
        match obj with
        | .objRef r =>
          match objGet key (vm.objHeap.getD r []) with
          | .error msg => (fr.strErr msg, vm)
          | .ok v => run fuel (vm.pushV v) { fr with ip := fr.ip + 1 }
        | .listRef r =>
          match listGet key (vm.listHeap.getD r []) with
          | .error msg => (fr.strErr msg, vm)
          | .ok v => run fuel (vm.pushV v) { fr with ip := fr.ip + 1 }
        | .stringV s =>
          match stringGet key s with
          | .error msg => (fr.strErr msg, vm)
          | .ok v => run fuel (vm.pushV v) { fr with ip := fr.ip + 1 }
        | _ => (fr.strErr "يجب أن يكون المتغير نص أو قائمة أو كائن", vm)
      | .Set =>
        let (key, vm) := vm.popV
        let (obj, vm) := vm.popV
        match obj with
        | .objRef r =>
          if key.is_string = false then
            (fr.strErr "يجب أن يكون اسم الخاصية نصاً", vm)
          else
            let items := aInsert key.to_string vm.lastV (vm.objHeap.getD r [])
            run fuel { vm with objHeap := vm.objHeap.set r items }
              { fr with ip := fr.ip + 1 }
        | .listRef r =>
          let items := vm.listHeap.getD r []
          if key.is_int = false then
            (fr.strErr "يجب أن يكون رقم العنصر عدداً صحيحاً", vm)
          else
            match get_absolute_idx key.as_int items.length with
            | .error _ => (fr.strErr "لا يوجد عنصر بهذا الرقم", vm)
            | .ok idx =>
              run fuel
                { vm with
                  listHeap := vm.listHeap.set r (items.set idx vm.lastV) }
                { fr with ip := fr.ip + 1 }
        | _ => (fr.strErr "يجب أن يكون المتغير قائمة أو كائن", vm)
      | .Closure =>
        let count := fr.readByte
        let (fv, vm) := vm.popV
        match fv with
        | .function fn =>
          let pairs := readUpPairs fr.fn.code (fr.ip + 2) count
          let (ups, vm) := resolveUps fr.slots fr.encUps pairs vm
          run fuel (vm.pushV (.closure fn ups))
            { fr with ip := fr.ip + 2 + 2 * count }
        | _ => (.stuck, vm)
      | .Call =>
        let argc := fr.readByte
        let idx := vm.stack.length - argc - 1
        match vm.getV idx with
        | .closure fn ups =>
          match check_arity fn.arity argc with
          | .error v => (fr.strErr v.to_string, vm)
          | .ok _ =>
            match run fuel vm ⟨fn, ups, 0, idx, fr.upvals, []⟩ with
            | (.done ret, vm) =>
              let vm := vm.truncateV idx
              match ret with
              | some v => run fuel (vm.pushV v) { fr with ip := fr.ip + 2 }
              | none => (.stuck, vm)
            | (.err v bt, vm) =>
              match fr.handlers with
              | h :: hs =>
                let vm := vm.truncateV h.slots
                let vm := vm.pushV v
                let vm := { vm with caught := vm.caught ++ [(v, bt)] }
                run fuel vm { fr with ip := h.ip, handlers := hs }
              | [] => (.err v (bt ++ [fr.curBt]), vm)
            | (.stuck, vm) => (.stuck, vm)
        | _ => (.stuck, vm)
      | .Return =>
        let (v, vm) := vm.popV
        (.done (some v), vm)
      | .GetUpValue =>
        let i := fr.readByte
        let id := fr.upvals.getD i 0
        let v :=
          match upLookup vm.upStore id with
          | some (.Open j) => vm.getV j
          | some (.Closed v) => v
          | none => .nil
        run fuel (vm.pushV v) { fr with ip := fr.ip + 2 }
      | .SetUpValue =>
        let i := fr.readByte
        let id := fr.upvals.getD i 0
        let vm :=
          match upLookup vm.upStore id with
          | some (.Open j) => vm.setV j vm.lastV
          | _ => { vm with upStore := upSet vm.upStore id (.Closed vm.lastV) }
        run fuel vm { fr with ip := fr.ip + 2 }
      | .CloseUpValue =>
        let idx := vm.stack.length - 1
        let vm := vm.closeUpValues idx
        let (_, vm) := vm.popV
        run fuel vm { fr with ip := fr.ip + 1 }
      | .AppendHandler =>
        let h : Handler := ⟨vm.stack.length, fr.ip + fr.readByte⟩
        run fuel vm { fr with ip := fr.ip + 3, handlers := h :: fr.handlers }
      | .PopHandler =>
        run fuel vm { fr with ip := fr.ip + 1, handlers := fr.handlers.tail }
      | .Throw =>
        match fr.handlers with
        | h :: hs =>
          let (thr, vm) := vm.popV
          let vm := vm.truncateV h.slots
          let vm := vm.pushV thr
          run fuel vm { fr with ip := h.ip, handlers := hs }
        | [] =>
          let bt := [fr.curBt]
          let (thr, vm) := vm.popV
          (.err thr bt, vm)
      | _ => (.stuck, vm)

/-- Embeds `Vm::run`: wrap the top-level function in a closure, push it at slot 0,
run it as a frame based at 0 and pop afterwards (natives, registered from
the external registry, play no part in the embedded programs). -/
def vmRun (fuel : Nat) (vm : Vm) (f : FuncV) : RunRes × Vm :=
  let vm := vm.pushV (.closure f [])
  let (res, vm) := run fuel vm ⟨f, [], 0, 0, [], []⟩
  let (_, vm) := vm.popV
  (res, vm)

/-- A fresh VM (the native registry is external and the embedded programs
reference only their own globals). -/
def Vm.init : Vm :=
  ⟨[], [], [], [], 0, [], [], []⟩

/-! ## Concrete tokens for the parser claims -/

def retTok : Token := ⟨.kReturn, "أرجع"⟩
def nlTok : Token := ⟨.newline, "\n"⟩
def xTok : Token := ⟨.identifier, "س"⟩
def yTok : Token := ⟨.identifier, "ص"⟩
def zTok : Token := ⟨.identifier, "ع"⟩
def oneTok : Token := ⟨.number, "1"⟩
def twoTok : Token := ⟨.number, "2"⟩
def threeTok : Token := ⟨.number, "3"⟩
def fourTok : Token := ⟨.number, "4"⟩
def plusTok : Token := ⟨.plus, "+"⟩
def starTok : Token := ⟨.star, "*"⟩
def eqTok : Token := ⟨.equal, "="⟩
def eqEqTok : Token := ⟨.eqEq, "=="⟩
def andTok : Token := ⟨.andAnd, "&&"⟩
def orTok : Token := ⟨.orOr, "||"⟩
def trueTok : Token := ⟨.true_, "صحيح"⟩
def falseTok : Token := ⟨.false_, "خطأ"⟩
def dotTok : Token := ⟨.period, "."⟩

/-! ## The claims -/

/-- C1: the spec says a bare `return` (keyword immediately followed by a
newline) produces the `Return(kw, expr?)` statement node with no
expression.  The code does parse it successfully, but
`Parser::return_stml` builds `Stml::Throw(token, None)` — the `Throw`
variant, a copy-paste slip from `throw_stml` (`src/قتام/src/parser.rs:412`
inside `return_stml`, against the spec's `Return(kw, expr?)` variant and
the separate `throw_stml`).  This theorem evaluates the embedded parser at
the failing input: the result is the `Throw` node and not the `Return`
node. -/
theorem C1_bare_return_builds_throw_node :
    (parseF 20 (initP [retTok, nlTok, eofTok])).1 =
        .ok [.throwS retTok none] ∧
      (parseF 20 (initP [retTok, nlTok, eofTok])).1 ≠
        .ok [.returnS retTok none] := by
  constructor
  · rfl
  · intro h
    rw [(rfl : (parseF 20 (initP [retTok, nlTok, eofTok])).1 =
      .ok [.throwS retTok none])] at h
    injection h with h1
    injection h1 with h2 h3
    exact Stml.noConfusion h2

/-- C6: an assignment `=` is accepted only when the left operand is an
assignable form: `س.ص = 3` parses as a `Set` node and `س = 3` as an
assignment (a `Binary` node on `=`), both without recorded errors; each of
`3 + س = 4`, `س + 3 = 4`, `3 + س.ص = 4` and `س.ص + 3 = 4` makes parsing
fail, the recorded diagnostic being exactly the invalid right-hand-side
error at the `=` token (every operator that cannot produce an lvalue
clears the threaded `can_assign` flag). -/
theorem C6_assignment_validity :
    ((parseExprF 30 (initP [xTok, dotTok, yTok, eqTok, threeTok, eofTok])).1 =
        .ok (.setE eqTok (.variable_ xTok) (.literal (.stringL yTok))
          (.literal (.numberL threeTok))) ∧
      (parseExprF 30
          (initP [xTok, dotTok, yTok, eqTok, threeTok, eofTok])).2.errs =
        []) ∧
    ((parseExprF 30 (initP [xTok, eqTok, threeTok, eofTok])).1 =
        .ok (.binaryE eqTok (.variable_ xTok) (.literal (.numberL threeTok)))
      ∧ (parseExprF 30 (initP [xTok, eqTok, threeTok, eofTok])).2.errs = []) ∧
    ((parseF 30
          (initP [threeTok, plusTok, xTok, eqTok, fourTok, eofTok])).1 =
        .error () ∧
      (parseF 30
          (initP [threeTok, plusTok, xTok, eqTok, fourTok, eofTok])).2.errs =
        [.invalidRhs eqTok]) ∧
    ((parseF 30
          (initP [xTok, plusTok, threeTok, eqTok, fourTok, eofTok])).1 =
        .error () ∧
      (parseF 30
          (initP [xTok, plusTok, threeTok, eqTok, fourTok, eofTok])).2.errs =
        [.invalidRhs eqTok]) ∧
    ((parseF 30 (initP
          [threeTok, plusTok, xTok, dotTok, yTok, eqTok, fourTok,
            eofTok])).1 = .error () ∧
      (parseF 30 (initP
          [threeTok, plusTok, xTok, dotTok, yTok, eqTok, fourTok,
            eofTok])).2.errs = [.invalidRhs eqTok]) ∧
    ((parseF 30 (initP
          [xTok, dotTok, yTok, plusTok, threeTok, eqTok, fourTok,
            eofTok])).1 = .error () ∧
      (parseF 30 (initP
          [xTok, dotTok, yTok, plusTok, threeTok, eqTok, fourTok,
            eofTok])).2.errs = [.invalidRhs eqTok]) :=
  ⟨⟨rfl, rfl⟩, ⟨rfl, rfl⟩, ⟨rfl, rfl⟩, ⟨rfl, rfl⟩, ⟨rfl, rfl⟩, ⟨rfl, rfl⟩⟩

/-- C7: Pratt expression parsing respects the operator table:
`1 + 2 * 3` is `(+ 1 (* 2 3))`; `4 == 4 && صحيح || خطأ` is
`(|| (&& (== 4 4) صحيح) خطأ)`; left-associative operators group leftward,
`1 + 2 + 3` being `(+ (+ 1 2) 3)`; and assignment is right-associative,
`س = ص = ع` being `(= س (= ص ع))` — all without recorded errors, because
the infix loop recurses with `precedence − 1` for left-associative
operators and `precedence` for right-associative ones. -/
theorem C7_precedence_and_associativity :
    ((parseExprF 30
        (initP [oneTok, plusTok, twoTok, starTok, threeTok, eofTok])).1 =
      .ok (.binaryE plusTok (.literal (.numberL oneTok))
        (.binaryE starTok (.literal (.numberL twoTok))
          (.literal (.numberL threeTok))))) ∧
    ((parseExprF 30 (initP [fourTok, eqEqTok, fourTok, andTok, trueTok,
        orTok, falseTok, eofTok])).1 =
      .ok (.binaryE orTok
        (.binaryE andTok
          (.binaryE eqEqTok (.literal (.numberL fourTok))
            (.literal (.numberL fourTok)))
          (.literal (.boolL trueTok)))
        (.literal (.boolL falseTok)))) ∧
    ((parseExprF 30
        (initP [oneTok, plusTok, twoTok, plusTok, threeTok, eofTok])).1 =
      .ok (.binaryE plusTok
        (.binaryE plusTok (.literal (.numberL oneTok))
          (.literal (.numberL twoTok)))
        (.literal (.numberL threeTok)))) ∧
    ((parseExprF 30 (initP [xTok, eqTok, yTok, eqTok, zTok, eofTok])).1 =
      .ok (.binaryE eqTok (.variable_ xTok)
        (.binaryE eqTok (.variable_ yTok) (.variable_ zTok)))) ∧
    (parseExprF 30
        (initP [oneTok, plusTok, twoTok, starTok, threeTok, eofTok])).2.errs
      = [] ∧
    (parseExprF 30 (initP [fourTok, eqEqTok, fourTok, andTok, trueTok,
        orTok, falseTok, eofTok])).2.errs = [] ∧
    (parseExprF 30
        (initP [oneTok, plusTok, twoTok, plusTok, threeTok, eofTok])).2.errs
      = [] ∧
    (parseExprF 30 (initP [xTok, eqTok, yTok, eqTok, zTok, eofTok])).2.errs
      = [] :=
  ⟨rfl, rfl, rfl, rfl, rfl, rfl, rfl, rfl⟩

/-- C5: for a list of length `n` and an integer-valued key `i` with
`−n ≤ i < n`, the `Get` list branch returns the element at index
`i mod n` (non-negative keys address from the front, negative keys wrap
from the end); an integer key outside `[−n, n)` throws, and a
non-integer-valued number key throws. -/
theorem C5_list_index_normalisation :
    (∀ (items : List Value) (i : Int),
        -(items.length : Int) ≤ i → i < (items.length : Int) →
        listGet (.number i true) items =
          .ok (items.getD (i % (items.length : Int)).toNat .nil)) ∧
    (∀ (items : List Value) (i : Int),
        (i < -(items.length : Int) ∨ (items.length : Int) ≤ i) →
        listGet (.number i true) items = .error "لا يوجد عنصر بهذا الرقم") ∧
    (∀ (items : List Value) (i : Int),
        listGet (.number i false) items =
          .error "يجب أن يكون رقم العنصر عدداً صحيحاً") := by
  refine ⟨?_, ?_, ?_⟩
  · intro items i h1 h2
    simp only [listGet, Value.is_int, Value.as_int, get_absolute_idx]
    by_cases h0 : 0 ≤ i
    · rw [if_pos h0, if_neg (by omega : ¬ ((items.length : Int) ≤ i)),
        Int.emod_eq_of_lt h0 h2]
      rfl
    · rw [if_neg h0, if_neg (by omega : ¬ ((items.length : Int) < -i))]
      have e1 : i % (items.length : Int) = (items.length : Int) + i := by
        have h3 : (i + (items.length : Int) * 1) % (items.length : Int) =
            i % (items.length : Int) :=
          Int.add_mul_emod_self_left i (items.length : Int) 1
        have h4 : (i + (items.length : Int)) % (items.length : Int) =
            i + (items.length : Int) :=
          Int.emod_eq_of_lt (by omega) (by omega)
        rw [mul_one] at h3
        omega
      rw [e1]
      rfl
  · intro items i h
    simp only [listGet, Value.is_int, Value.as_int, get_absolute_idx]
    by_cases h0 : 0 ≤ i
    · rw [if_pos h0, if_pos (by omega : (items.length : Int) ≤ i)]
      rfl
    · rw [if_neg h0, if_pos (by omega : (items.length : Int) < -i)]
      rfl
  · intro items i
    simp [listGet, Value.is_int]

/-- Witness for C5: on the three-element list `[10, 20, 30]`, the key `−1`
resolves to the last element. -/
theorem C5_witness :
    listGet (.number (-1) true)
        [.number 10 true, .number 20 true, .number 30 true] =
      .ok (.number 30 true) :=
  (C5_list_index_normalisation.1
    [.number 10 true, .number 20 true, .number 30 true] (-1)
    (by decide) (by decide)).trans rfl

/-- C10: the `Get` string branch measures position and length in Unicode
characters (`str::chars`, the string's character list), not bytes: for a
string of `n` characters and an integer-valued key `i` with `−n ≤ i < n`
it returns the one-character string at character position `i mod n`, so
indexing addresses whole letters and never splits a character; an integer
key outside that range throws, and a non-integer-valued number key
throws. -/
theorem C10_string_char_indexing :
    (∀ (s : String) (i : Int),
        -(s.data.length : Int) ≤ i → i < (s.data.length : Int) →
        stringGet (.number i true) s =
          .ok (.stringV
            ⟨[s.data.getD (i % (s.data.length : Int)).toNat 'ا']⟩)) ∧
    (∀ (s : String) (i : Int),
        (i < -(s.data.length : Int) ∨ (s.data.length : Int) ≤ i) →
        stringGet (.number i true) s = .error "لا يوجد عنصر بهذا الرقم") ∧
    (∀ (s : String) (i : Int),
        stringGet (.number i false) s =
          .error "يجب أن يكون رقم العنصر عدداً صحيحاً") := by
  refine ⟨?_, ?_, ?_⟩
  · intro s i h1 h2
    simp only [stringGet, Value.is_int, Value.as_int, get_absolute_idx]
    by_cases h0 : 0 ≤ i
    · rw [if_pos h0, if_neg (by omega : ¬ ((s.data.length : Int) ≤ i)),
        Int.emod_eq_of_lt h0 h2]
      rfl
    · rw [if_neg h0, if_neg (by omega : ¬ ((s.data.length : Int) < -i))]
      have e1 : i % (s.data.length : Int) = (s.data.length : Int) + i := by
        have h3 : (i + (s.data.length : Int) * 1) % (s.data.length : Int) =
            i % (s.data.length : Int) :=
          Int.add_mul_emod_self_left i (s.data.length : Int) 1
        have h4 : (i + (s.data.length : Int)) % (s.data.length : Int) =
            i + (s.data.length : Int) :=
          Int.emod_eq_of_lt (by omega) (by omega)
        rw [mul_one] at h3
        omega
      rw [e1]
      rfl
  · intro s i h
    simp only [stringGet, Value.is_int, Value.as_int, get_absolute_idx]
    by_cases h0 : 0 ≤ i
    · rw [if_pos h0, if_pos (by omega : (s.data.length : Int) ≤ i)]
      rfl
    · rw [if_neg h0, if_pos (by omega : (s.data.length : Int) < -i)]
      rfl
  · intro s i
    simp [stringGet, Value.is_int]

/-- Witness for C10: indexing the four-letter Arabic word `سلام` (whose
UTF-8 encoding is multi-byte) at key `−1` yields the whole last letter
`م`. -/
theorem C10_witness :
    stringGet (.number (-1) true) "سلام" = .ok (.stringV "م") :=
  (C10_string_char_indexing.1 "سلام" (-1) (by decide) (by decide)).trans rfl

/-! ## Concrete bytecode programs for the VM claims

Each program is a hand-assembled chunk in the opcode numbering of
`instrOfByte`; the execution claims below evaluate the embedded
`Frame::run` on them. -/

/-- Run a top-level function the way `Vm::run` sets it up, but keep the
final state (the frame based at slot 0 over the pushed top closure). -/
def runSolo (fuel : Nat) (f : FuncV) : RunRes × Vm :=
  run fuel (Vm.init.pushV (.closure f [])) ⟨f, [], 0, 0, [], []⟩

/-- A top-level chunk that installs a handler (saved stack depth 1, catch
offset 9 = the end of the chunk), then builds a closure over `f` and calls
it with no arguments: `AppendHandler 9; Constant8 0; Closure 0; Call 0`. -/
def catchTop (f : FuncV) : FuncV :=
  .mk [34, 9, 0, 1, 0, 28, 0, 29, 0] [.function f]
    (List.replicate 9 0) (.fixed 0) none

/-- Run `f` under the handler-installing top-level chunk. -/
def runCatch (f : FuncV) : RunRes × Vm :=
  runSolo 80 (catchTop f)

/-- Embeds `Negate` applied to a string: a VM-detected type mismatch. -/
def negStrFn : FuncV :=
  .mk [1, 0, 3] [.stringV "س"] (List.replicate 3 0) (.fixed 0) (some "سالب")

/-- Embeds `GetGlobal` on an unknown name. -/
def unknownGlobalFn : FuncV :=
  .mk [1, 0, 21] [.stringV "غ"] (List.replicate 3 0) (.fixed 0) none

/-- Embeds `DefineGlobal` of the same name twice: a redeclared global. -/
def redeclareFn : FuncV :=
  .mk [1, 0, 1, 1, 19, 1, 0, 1, 1, 19]
    [.number 1 true, .stringV "م"] (List.replicate 10 0) (.fixed 0) none

/-- Embeds `Get` of a missing key on an empty object. -/
def missingKeyFn : FuncV :=
  .mk [25, 0, 1, 0, 26] [.stringV "خ"] (List.replicate 5 0) (.fixed 0) none

/-- Embeds `Get` on a number: an illegal container. -/
def badContainerFn : FuncV :=
  .mk [1, 0, 1, 1, 26] [.number 5 true, .number 0 true]
    (List.replicate 5 0) (.fixed 0) none

/-- A callee demanding exactly one argument. -/
def arityOneFn : FuncV := .mk [30] [] [0] (.fixed 1) (some "و")

/-- Calls `arityOneFn` with zero arguments: an arity mismatch (detected at
the `Call` in this frame and propagated out of it). -/
def arityMismatchFn : FuncV :=
  .mk [1, 0, 28, 0, 29, 0] [.function arityOneFn]
    (List.replicate 6 0) (.fixed 0) none

/-- A frame that installs its own handler (catch offset = end of chunk)
and then throws `بوم` with the script `Throw` instruction. -/
def sameFrameThrowFn : FuncV :=
  .mk [34, 6, 0, 1, 0, 36] [.stringV "بوم"]
    (List.replicate 6 0) (.fixed 0) (some "ر")

/-- A frame that installs its own handler (catch offset = end of chunk)
and then hits a VM-detected type mismatch (`Negate` on a string). -/
def sameFrameNegFn : FuncV :=
  .mk [34, 6, 0, 1, 0, 3] [.stringV "س"]
    (List.replicate 6 0) (.fixed 0) (some "ر")

/-- Throws `قنبلة` with no handler; the `Throw` sits at offset 2, whose
chunk token is 77. -/
def throwFn : FuncV :=
  .mk [1, 0, 36] [.stringV "قنبلة"] [0, 0, 77] (.fixed 0) (some "ج")

/-- Calls `throwFn` with no handler of its own; its `Call` sits at offset
4, whose chunk token is 55. -/
def midFn : FuncV :=
  .mk [1, 0, 28, 0, 29, 0] [.function throwFn]
    [0, 0, 0, 0, 55, 0] (.fixed 0) (some "ف")

/-- C2: the claim says every VM-detected illegal operation is an ordinary
Value propagated through the handler mechanism and is catchable even by a
handler installed in the same frame as the failing instruction.  The code
disagrees on the same-frame part: `string_to_err` sites `return Err(…)`
from `Frame::run` immediately, without consulting the frame's own handler
stack (only the script `Throw` instruction and the `Call` error branch
do).  Counterexample: a frame installs a handler and then executes
`Negate` on a string — the run ends in an uncaught error carrying the type
mismatch message instead of resuming at the catch offset (which, at the
end of the chunk, would have produced `Ok(None)` with the error value on
the stack). -/
theorem C2_counterexample_same_frame_handler_missed :
    (runSolo 20 sameFrameNegFn).1 =
        .err (.stringV "يجب أن يكون المعامل رقماً") [⟨0, some "ر"⟩] ∧
      (runSolo 20 sameFrameNegFn).1 ≠ .done none := by
  constructor
  · rfl
  · intro h
    rw [(rfl : (runSolo 20 sameFrameNegFn).1 =
      .err (.stringV "يجب أن يكون المعامل رقماً") [⟨0, some "ر"⟩])] at h
    exact RunRes.noConfusion h

/-- C2 (amended): every VM-detected illegal operation — a type mismatch in
an operator, an unknown global, a redeclared global, a missing object key,
an illegal container in `Get`, an arity mismatch — is an ordinary string
`Value` returned as the error result of the failing frame's run, and is
caught by a handler active in a calling frame: the `Call` error branch
truncates the stack to the handler's saved depth (1), pushes the error
value and resumes at the catch offset (the end of the chunk, so the run
completes normally with exactly the error value above the saved stack).  A
same-frame handler is consulted only by the script `Throw` instruction
(last conjunct). -/
theorem C2_vm_errors_caught_in_caller :
    ((runCatch negStrFn).1 = .done none ∧
      (runCatch negStrFn).2.stack =
        [.closure (catchTop negStrFn) [],
          .stringV "يجب أن يكون المعامل رقماً"]) ∧
    ((runCatch unknownGlobalFn).1 = .done none ∧
      (runCatch unknownGlobalFn).2.stack =
        [.closure (catchTop unknownGlobalFn) [],
          .stringV "لا يوجد متغير بهذا الاسم"]) ∧
    ((runCatch redeclareFn).1 = .done none ∧
      (runCatch redeclareFn).2.stack =
        [.closure (catchTop redeclareFn) [],
          .stringV "يوجد متغير بهذا الاسم"]) ∧
    ((runCatch missingKeyFn).1 = .done none ∧
      (runCatch missingKeyFn).2.stack =
        [.closure (catchTop missingKeyFn) [],
          .stringV "لا يوجد قيمة بهذا الاسم"]) ∧
    ((runCatch badContainerFn).1 = .done none ∧
      (runCatch badContainerFn).2.stack =
        [.closure (catchTop badContainerFn) [],
          .stringV "يجب أن يكون المتغير نص أو قائمة أو كائن"]) ∧
    ((runCatch arityMismatchFn).1 = .done none ∧
      (runCatch arityMismatchFn).2.stack =
        [.closure (catchTop arityMismatchFn) [],
          .stringV
            "توقعت عدد 1 من المدخلات ولكن حصلت على 0 بدلاً من ذللك"]) ∧
    ((runSolo 20 sameFrameThrowFn).1 = .done none ∧
      (runSolo 20 sameFrameThrowFn).2.stack =
        [.closure sameFrameThrowFn [], .stringV "بوم"]) :=
  ⟨⟨rfl, rfl⟩, ⟨rfl, rfl⟩, ⟨rfl, rfl⟩, ⟨rfl, rfl⟩, ⟨rfl, rfl⟩, ⟨rfl, rfl⟩,
    ⟨rfl, rfl⟩⟩

/-- C3: the claim says that on resume the operand-stack depth equals the
depth recorded when `AppendHandler` installed the handler.  Counterexample
with the nearest handler one frame up (`k = 1`): the handler records depth
1 (only the top closure was on the stack), exactly one backtrace entry is
recorded before the catch (that part of the claim holds, witnessed by the
ghost `caught` log), but on resume the depth is 2 — the recorded depth
plus the pushed thrown value — not 1. -/
theorem C3_counterexample_resume_depth :
    (runCatch throwFn).2.caught =
        [(.stringV "قنبلة", [⟨77, some "ج"⟩])] ∧
      (runCatch throwFn).2.stack.length = 2 ∧ (2 : Nat) ≠ 1 :=
  ⟨rfl, rfl, by decide⟩

/-- C3 (amended): with the nearest active handler `k = 2` frames up
(`ج` throws, its caller `ف` has no handler, the top frame's handler was
installed at stack depth 1), exactly 2 backtrace entries are recorded
before the catch resumes — the bottom-most being the throw site (token 77
in `ج`), then the unwound caller's call site (token 55 in `ف`) — and the
operand-stack depth at the moment execution resumes at the catch offset is
the recorded depth plus one, the pushed thrown value on top of the
truncated stack. -/
theorem C3_handler_unwinding :
    (runCatch midFn).1 = .done none ∧
    (runCatch midFn).2.caught =
      [(.stringV "قنبلة", [⟨77, some "ج"⟩, ⟨55, some "ف"⟩])] ∧
    (runCatch midFn).2.stack =
      [.closure (catchTop midFn) [], .stringV "قنبلة"] ∧
    (runCatch midFn).2.stack.length = 1 + 1 :=
  ⟨rfl, rfl, rfl, rfl⟩

/-- The identity function `|س| { أرجع س }`: fixed arity 1, returns its
argument (`GetLocal 1; Return`). -/
def idFn : FuncV := .mk [22, 1, 30] [] [0, 0, 0] (.fixed 1) (some "هوية")

/-- Caller chunk: build a closure over `idFn`, push the argument 7 and
call it (`Constant8 0; Closure 0; Constant8 1; Call 1`); the pre-call
operand depth is 3 (top closure, callee, argument) and the argument count
is 1. -/
def callBalFn : FuncV :=
  .mk [1, 0, 28, 0, 1, 1, 29, 1]
    [.function idFn, .number 7 true] (List.replicate 8 0) (.fixed 0) none

def callBalRun : RunRes × Vm := runSolo 30 callBalFn

/-- C4: the claim says the depth after a normally-completing `Call`/
`Return` pair is the pre-call depth minus the argument count **plus one**.
Counterexample: calling `idFn` with one argument from pre-call depth 3
leaves depth 2 = 3 − 1 (the callee's own stack slot is consumed and
replaced by the return value), not 3 − 1 + 1 = 3. -/
theorem C4_counterexample_depth_off_by_one :
    callBalRun.2.stack = [.closure callBalFn [], .number 7 true] ∧
      callBalRun.2.stack.length = 3 - 1 ∧ (3 - 1 : Nat) ≠ 3 - 1 + 1 :=
  ⟨rfl, rfl, by decide⟩

/-- A function body that is never executed (only captured over). -/
def gIdleFn : FuncV := .mk [30] [] [0] (.fixed 0) (some "خامل")

/-- Embeds `ف`: push the local 10, build a closure capturing it (`is_local`,
slot 1), export that closure as global `أ`, and return 99. -/
def closeRetFn : FuncV :=
  .mk [1, 0, 1, 1, 28, 1, 1, 1, 1, 2, 19, 1, 3, 30]
    [.number 10 true, .function gIdleFn, .stringV "أ", .number 99 true]
    (List.replicate 14 0) (.fixed 0) (some "ف")

/-- Top-level chunk calling `ف` with no arguments from pre-call depth 2
(top closure, callee). -/
def closeRetTop : FuncV :=
  .mk [1, 0, 28, 0, 29, 0] [.function closeRetFn]
    (List.replicate 6 0) (.fixed 0) none

def closeRetRun : RunRes × Vm := runSolo 40 closeRetTop

/-- C4 (amended): after a `Call argc` whose callee completes normally via
`Return`, the operand-stack depth equals the pre-call depth minus the
argument count (the callee's own slot is consumed; equivalently minus
`argc + 1`, plus one for the return value): here pre-call depth 2, zero
arguments, final depth 2 with the return value 99 on top of the stack
truncated to the callee's `slots` base 1; and on return the upvalue open
at slot 2 (≥ the base) was closed over the local's value 10, leaving no
open upvalue. -/
theorem C4_call_return_truncation :
    closeRetRun.1 = .done none ∧
    closeRetRun.2.stack = [.closure closeRetTop [], .number 99 true] ∧
    closeRetRun.2.stack.length = 2 ∧
    closeRetRun.2.upStore = [(0, .Closed (.number 10 true))] ∧
    closeRetRun.2.openUpValues = [] :=
  ⟨rfl, rfl, rfl, rfl, rfl⟩

/-- Embeds `ع`: increment the captured upvalue and return the new value
(`GetUpValue 0; Constant8 0; Add; SetUpValue 0; Return`). -/
def gFn : FuncV :=
  .mk [31, 0, 1, 0, 4, 32, 0, 30] [.number 1 true] (List.replicate 8 0)
    (.fixed 0) (some "ع")

/-- Embeds `ف`: push the local 10; build two closures over `ع`, each capturing
the same local slot (`is_local`, slot 1), exporting them as globals `أ`
and `ب`; call `أ` once while the frame is live (writing 11 through the
open cell into the stack slot); return nil. -/
def fFn : FuncV :=
  .mk [1, 0, 1, 1, 28, 1, 1, 1, 1, 2, 19, 1, 1, 28, 1, 1, 1, 1, 3, 19,
       1, 2, 21, 29, 0, 0, 1, 4, 30]
    [.number 10 true, .function gFn, .stringV "أ", .stringV "ب", .nil]
    (List.replicate 29 0) (.fixed 0) (some "ف")

/-- Top-level: call `ف` (closing the shared cell over the written value
11 when it returns), then call `أ` and `ب` once each. -/
def topC8 : FuncV :=
  .mk [1, 0, 28, 0, 29, 0, 0, 1, 1, 21, 29, 0, 1, 2, 21, 29, 0]
    [.function fFn, .stringV "أ", .stringV "ب"]
    (List.replicate 17 0) (.fixed 0) none

def c8Run : RunRes × Vm := runSolo 90 topC8

/-- C8: upvalue capture is sound.  The two closures `أ` and `ب` each
capture the same enclosing local: the second `Closure` instruction finds
the open upvalue already pointing at that absolute slot and reuses it —
both closures carry the same cell id 0 and only one cell is ever created
(`nextUp = 1`).  They observe each other's writes: the call through `أ`
while the frame is live writes 11 through the open cell into the stack
slot; on the frame's return the cell is closed over that value; the later
calls through `أ` then `ب` read 11 and 12 and return 12 and 13, each
reading the last value written through the shared upvalue, so the final
stack holds 12 and 13 and the cell ends closed over 13. -/
theorem C8_upvalue_sharing :
    c8Run.1 = .done none ∧
    c8Run.2.stack =
      [.closure topC8 [], .number 12 true, .number 13 true] ∧
    aLookup "أ" c8Run.2.globals = some (.closure gFn [0]) ∧
    aLookup "ب" c8Run.2.globals = some (.closure gFn [0]) ∧
    c8Run.2.nextUp = 1 ∧
    c8Run.2.upStore = [(0, .Closed (.number 13 true))] :=
  ⟨rfl, rfl, rfl, rfl, rfl, rfl⟩

/-- C9: executing `JumpIfFalse` or `JumpIfTrue` never modifies the operand
stack (and no other VM state): the condition value is inspected through
`last` but not popped and remains on top in both the taken and the
not-taken branch; the continuation runs in the very same `Vm` state with
only the instruction pointer changed (by the 2-byte operand when the jump
is taken, by 3 when it is not). -/
theorem C9_conditional_jumps_preserve_stack (fuel : Nat) (vm : Vm)
    (fr : Frame) (b : Nat) (hb : fr.fn.code.get? fr.ip = some b) :
    (instrOfByte b = .JumpIfFalse →
      run (fuel + 1) vm fr =
        run fuel vm
          { fr with
            ip := fr.ip + (if vm.lastV.is_truthy then 3 else fr.read2) }) ∧
    (instrOfByte b = .JumpIfTrue →
      run (fuel + 1) vm fr =
        run fuel vm
          { fr with
            ip := fr.ip + (if vm.lastV.is_truthy then fr.read2 else 3) }) := by
  constructor <;> intro h
  · rw [run, hb]
    simp only [h]
    by_cases hc : vm.lastV.is_truthy <;> simp [hc]
  · rw [run, hb]
    simp only [h]
    by_cases hc : vm.lastV.is_truthy <;> simp [hc]

/-- A chunk whose first instruction is `JumpIfFalse 9`. -/
def jumpWFn : FuncV := .mk [16, 9, 0] [] [0, 0, 0] (.fixed 0) none

def jumpWVm : Vm := Vm.init.pushV (.boolean true)

def jumpWFr : Frame := ⟨jumpWFn, [], 0, 0, [], []⟩

/-- Witness for C9: on a truthy top of stack, `JumpIfFalse` falls through
to offset 3 with the state untouched. -/
theorem C9_witness :
    run 6 jumpWVm jumpWFr = run 5 jumpWVm { jumpWFr with ip := 3 } :=
  ((C9_conditional_jumps_preserve_stack 5 jumpWVm jumpWFr 16 rfl).1
    rfl).trans (by rfl)

end Slia
